import Mathlib

/-!
Verification of the link-state reconciliation engine of `resolved-link.c`
(systemd's local DNS/LLMNR resolver daemon).

The C code is shallowly embedded: linked lists become Lean lists, pointers
become numeric identities (`id` fields), external fallible services
(netlink decode, sd-network queries, allocation) become explicit
parameters carrying their results, and each C function becomes a pure
Lean function from old state to new state.
-/

namespace Resolved

/-! ## Constants (numeric values of the C macros used by the file) -/

def AF_UNSPEC : Int := 0
def AF_INET : Int := 2
def AF_INET6 : Int := 10
def IFF_LOOPBACK : Nat := 8
def IFF_MULTICAST : Nat := 4096
def IFA_F_DEPRECATED : Nat := 32
def RT_SCOPE_HOST : Nat := 254
def RT_SCOPE_NOWHERE : Nat := 255
def DNS_PROTOCOL_DNS : Nat := 0
def DNS_PROTOCOL_LLMNR : Nat := 1

/-- RFC 4795 Section 2.8. suggests a TTL of 30s by default. -/
def LLMNR_DEFAULT_TTL : Nat := 30

def IF_NAMESIZE : Nat := 16

/-- `-ENOMEM` as returned by failed allocations. -/
def ENOMEM_E : Int := -12

/-- `-EEXIST` as returned by `hashmap_put` on a duplicate key. -/
def EEXIST_E : Int := -17

/-! ## Data model -/

/-- A DNS resource record.  `id` is the identity of the C heap object
(pointer identity); the remaining fields are the payload the code sets:
the owning key, the address value (for A/AAAA records), the PTR target
hostname (for reverse records) and the TTL. -/
structure DnsResourceRecord where
  id : Nat
  keyId : Nat
  value : Nat
  ptrTarget : String
  ttl : Nat
deriving DecidableEq

/-- One IP address owned by a link (`LinkAddress` in the C). -/
structure LinkAddress where
  id : Nat
  family : Int
  in_addr : Nat
  flags : Nat
  scope : Nat
  llmnr_address_rr : Option DnsResourceRecord
  llmnr_ptr_rr : Option DnsResourceRecord
deriving DecidableEq

/-- One configured DNS server owned by a link (`DnsServer` in the C).
`id` is pointer identity, `marked` is the transient reconciliation flag. -/
structure DnsServer where
  id : Nat
  family : Int
  address : Nat
  marked : Bool
deriving DecidableEq

/-- A DNS scope (`DnsScope`): a resolution domain bound to a link.  The
zone is the set of record identities currently published into it. -/
structure DnsScope where
  id : Nat
  protocol : Nat
  family : Int
  zone : List Nat
deriving DecidableEq

/-- One network interface (`Link` in the C).  The round-robin cursor
`current_dns_server` holds the identity of a server in `dns_servers`
(it is a non-owning pointer in the C). -/
structure Link where
  ifindex : Int
  name : String
  mtu : Nat
  flags : Nat
  addresses : List LinkAddress
  dns_servers : List DnsServer
  current_dns_server : Option Nat
  unicast_scope : Option DnsScope
  llmnr_ipv4_scope : Option DnsScope
  llmnr_ipv6_scope : Option DnsScope
deriving DecidableEq

/-- The manager state needed by `link_new`: the registry of links keyed
by interface index. -/
structure Manager where
  links : List (Int × Link)
deriving DecidableEq

/-- External environment: results of the sd-network / address-parsing
services consumed by the reconciler.  `getDns` is
`sd_network_get_dns(ifindex)`, `parseAddr` is
`in_addr_from_string_auto`, `opState` is
`sd_network_get_link_operational_state(ifindex)` (`none` both for
"query failed" and "state missing", as in the C, which ignores the
return value and leaves `state` NULL). -/
structure NetEnv where
  getDns : Int → Except Int (List String)
  parseAddr : String → Except Int (Int × Nat)
  opState : Int → Option String

/-! ## Relevance predicates (`link_relevant`, `link_address_relevant`) -/

/-- `STR_IN_SET(state, "unknown", "degraded", "routable")`. -/
def operationalStateGood (st : String) : Bool :=
  st == "unknown" || st == "degraded" || st == "routable"

/-- `link_address_relevant`: an address is relevant unless deprecated or
of host-local / nowhere routing scope. -/
def link_address_relevant (a : LinkAddress) : Bool :=
  if a.flags &&& IFA_F_DEPRECATED ≠ 0 then false
  else if a.scope = RT_SCOPE_HOST ∨ a.scope = RT_SCOPE_NOWHERE then false
  else true

/-- `link_relevant`: not loopback, operational state (when reported) in
the allowed set, and at least one relevant owned address of the family.
`op` is the already-fetched operational state for this link. -/
def link_relevant (op : Option String) (l : Link) (family : Int) : Bool :=
  if l.flags &&& IFF_LOOPBACK ≠ 0 then false
  else if (match op with | some st => !operationalStateGood st | none => false) then false
  else l.addresses.any (fun a => a.family == family && link_address_relevant a)

/-! ## DNS-server list reconciliation (`link_update_dns_servers`) -/

/-- The `(family, value)` pairs of a server list. -/
def pairsOf (ss : List DnsServer) : List (Int × Nat) :=
  ss.map (fun s => (s.family, s.address))

/-- `link_find_dns_server`: first server matching family and value. -/
def link_find_dns_server : List DnsServer → Int → Nat → Option DnsServer
  | [], _, _ => none
  | s :: rest, f, v =>
    if s.family = f ∧ s.address = v then some s
    else link_find_dns_server rest f v

/-- `s->marked = false` on the node returned by `link_find_dns_server`:
clear the marked flag of the first matching entry. -/
def unmarkFirst : List DnsServer → Int → Nat → List DnsServer
  | [], _, _ => []
  | s :: rest, f, v =>
    if s.family = f ∧ s.address = v then { s with marked := false } :: rest
    else s :: unmarkFirst rest f v

/-- The initial marking sweep: `s->marked = true` for every entry. -/
def markAll (ss : List DnsServer) : List DnsServer :=
  ss.map (fun s => { s with marked := true })

/-- The `STRV_FOREACH(nameserver, nameservers)` loop: parse each string,
unmark a matching existing entry or create a new one (`dns_server_new`,
which appends an unmarked entry with a fresh identity drawn from the
counter; `srvNewOk = false` makes creation fail with `-ENOMEM`).  On
failure the error code and the in-flight list (for the `clear` path) are
returned. -/
def processNameservers (parse : String → Except Int (Int × Nat)) (srvNewOk : Bool) :
    List String → List DnsServer → Nat → Except (Int × List DnsServer) (List DnsServer × Nat)
  | [], ss, c => .ok (ss, c)
  | n :: rest, ss, c =>
    match parse n with
    | .error r => .error (r, ss)
    | .ok (f, v) =>
      match link_find_dns_server ss f v with
      | some _ => processNameservers parse srvNewOk rest (unmarkFirst ss f v) c
      | none =>
        if srvNewOk then
          processNameservers parse srvNewOk rest (ss ++ [⟨c, f, v, false⟩]) (c + 1)
        else
          .error (ENOMEM_E, ss)

/-- Modelled from the spec: `dns_server_free` (not under `src/`) unlinks
the entry and, when the freed server is the cursor target, clears the
cursor so it is never left dangling ("cursor is cleared/redirected
synchronously during server removal").  Cursor effect of freeing every
entry of `ss`. -/
def cursorAfterFreeAll (cur : Option Nat) (ss : List DnsServer) : Option Nat :=
  match cur with
  | none => none
  | some cid => if cid ∈ ss.map (fun s => s.id) then none else some cid

/-- The `clear:` label: free every server of the in-flight list `ss`. -/
def clearServersWith (l : Link) (ss : List DnsServer) : Link :=
  { l with dns_servers := [],
           current_dns_server := cursorAfterFreeAll l.current_dns_server ss }

/-- The final sweep: free every entry still marked.  Cursor effect per
`cursorAfterFreeAll` restricted to the freed (marked) entries. -/
def sweepMarked (l : Link) (ss : List DnsServer) : Link :=
  { l with dns_servers := ss.filter (fun s => !s.marked),
           current_dns_server :=
             cursorAfterFreeAll l.current_dns_server (ss.filter (fun s => s.marked)) }

/-- `link_update_dns_servers`: mark-and-sweep reconciliation of the
link's server list against `sd_network_get_dns`.  Returns the updated
link, the identity counter, and the return code. -/
def link_update_dns_servers (env : NetEnv) (srvNewOk : Bool) (l : Link) (c : Nat) :
    Link × Nat × Int :=
  let ms := markAll l.dns_servers
  match env.getDns l.ifindex with
  | .error r => (clearServersWith l ms, c, r)
  | .ok ns =>
    match processNameservers env.parseAddr srvNewOk ns ms c with
    | .error (r, ss) => (clearServersWith l ss, c, r)
    | .ok (ss, c') => (sweepMarked l ss, c', 0)

/-- The `(family, value)` pairs that the loop of
`link_update_dns_servers` successfully parses from the reported
strings (on the success path every string parses, so this is the whole
reported set). -/
def parsedList (parse : String → Except Int (Int × Nat)) : List String → List (Int × Nat)
  | [] => []
  | n :: rest =>
    match parse n with
    | .ok p => p :: parsedList parse rest
    | .error _ => parsedList parse rest

/-- Clear the marked flag of a server when its pair is in `ps`
(the cumulative effect of the unmark steps of one pass). -/
def unmarkIfMem (ps : List (Int × Nat)) (s : DnsServer) : DnsServer :=
  if (s.family, s.address) ∈ ps then { s with marked := false } else s

/-! ## Round-robin cursor (`link_get_dns_server`, `link_next_dns_server`) -/

/-- Identity of the head of the server list (`l->dns_servers`). -/
def headServerId (ss : List DnsServer) : Option Nat :=
  ss.head?.map (fun s => s.id)

/-- `current->servers_next`: identity of the successor of the entry with
identity `cid` in the linked list. -/
def nextServerId : List DnsServer → Nat → Option Nat
  | [], _ => none
  | [_], _ => none
  | s :: t :: rest, cid =>
    if s.id = cid then some t.id else nextServerId (t :: rest) cid

/-- `link_get_dns_server`: default the cursor to the list head when
null, and return it. -/
def link_get_dns_server (l : Link) : Link × Option Nat :=
  let cur := match l.current_dns_server with
    | none => headServerId l.dns_servers
    | some cid => some cid
  ({ l with current_dns_server := cur }, cur)

/-- `link_next_dns_server`: a null cursor is set to the head (and the
call returns without advancing further); otherwise move to the next
entry if one exists, else wrap to the head.  (For a cursor identity not
present in the list — dangling in the C, excluded by the cursor
invariant — the successor lookup yields none and the code wraps.) -/
def link_next_dns_server (l : Link) : Link :=
  match l.current_dns_server with
  | none => { l with current_dns_server := headServerId l.dns_servers }
  | some cid =>
    match nextServerId l.dns_servers cid with
    | some nid => { l with current_dns_server := some nid }
    | none => { l with current_dns_server := headServerId l.dns_servers }

/-- `n` successive `link_next_dns_server` calls. -/
def advanceN (l : Link) : Nat → Link
  | 0 => l
  | k + 1 => link_next_dns_server (advanceN l k)

/-! ## Scope allocator (`link_allocate_scopes`) -/

/-- Allocation oracle for the three `dns_scope_new` calls (`true` means
the allocation succeeds). -/
structure ScopeAlloc where
  uc : Bool
  v4 : Bool
  v6 : Bool
deriving DecidableEq

/-- The first block of `link_allocate_scopes`: the unicast scope exists
while the DNS-server list is non-empty (allocation failure is only
logged). -/
def allocateUnicast (al : ScopeAlloc) (l : Link) (c : Nat) : Link × Nat :=
  if l.dns_servers ≠ [] then
    match l.unicast_scope with
    | some _ => (l, c)
    | none =>
      if al.uc then
        ({ l with unicast_scope := some ⟨c, DNS_PROTOCOL_DNS, AF_UNSPEC, []⟩ }, c + 1)
      else (l, c)
  else ({ l with unicast_scope := none }, c)

/-- The second block of `link_allocate_scopes`: the IPv4 LLMNR scope. -/
def allocateLlmnr4 (use_llmnr : Bool) (op : Option String) (al : ScopeAlloc)
    (l : Link) (c : Nat) : Link × Nat :=
  if link_relevant op l AF_INET ∧ l.flags &&& IFF_MULTICAST ≠ 0 ∧ use_llmnr then
    match l.llmnr_ipv4_scope with
    | some _ => (l, c)
    | none =>
      if al.v4 then
        ({ l with llmnr_ipv4_scope := some ⟨c, DNS_PROTOCOL_LLMNR, AF_INET, []⟩ }, c + 1)
      else (l, c)
  else ({ l with llmnr_ipv4_scope := none }, c)

/-- The third block of `link_allocate_scopes`: the IPv6 LLMNR scope. -/
def allocateLlmnr6 (use_llmnr : Bool) (op : Option String) (al : ScopeAlloc)
    (l : Link) (c : Nat) : Link × Nat :=
  if link_relevant op l AF_INET6 ∧ l.flags &&& IFF_MULTICAST ≠ 0 ∧ use_llmnr then
    match l.llmnr_ipv6_scope with
    | some _ => (l, c)
    | none =>
      if al.v6 then
        ({ l with llmnr_ipv6_scope := some ⟨c, DNS_PROTOCOL_LLMNR, AF_INET6, []⟩ }, c + 1)
      else (l, c)
  else ({ l with llmnr_ipv6_scope := none }, c)

/-- `link_allocate_scopes`: reconcile the existence of the unicast and
the two LLMNR scopes with their preconditions.  `use_llmnr` is
`l->manager->use_llmnr`, `op` the link's operational state, `c` the
fresh-identity counter for newly allocated scopes.  A failed allocation
is only logged: the scope stays absent. -/
def link_allocate_scopes (use_llmnr : Bool) (op : Option String) (al : ScopeAlloc)
    (l : Link) (c : Nat) : Link × Nat :=
  let (l1, c1) := allocateUnicast al l c
  let (l2, c2) := allocateLlmnr4 use_llmnr op al l1 c1
  allocateLlmnr6 use_llmnr op al l2 c2

/-- The three scope preconditions of §4.2 already hold of `l`'s scopes. -/
def scopesMatch (use_llmnr : Bool) (op : Option String) (l : Link) : Prop :=
  l.unicast_scope.isSome = !l.dns_servers.isEmpty ∧
  l.llmnr_ipv4_scope.isSome =
    (link_relevant op l AF_INET && decide (l.flags &&& IFF_MULTICAST ≠ 0) && use_llmnr) ∧
  l.llmnr_ipv6_scope.isSome =
    (link_relevant op l AF_INET6 && decide (l.flags &&& IFF_MULTICAST ≠ 0) && use_llmnr)

/-! ## Link registry (`link_new`) -/

/-- A `new0(Link, 1)` link with its index set: empty address and server
lists, no scopes, null cursor. -/
def freshLink (ifindex : Int) : Link :=
  ⟨ifindex, "", 0, 0, [], [], none, none, none, none⟩

/-- Modelled from the spec and the standard hashmap contract:
`hashmap_put` (basic library, not under `src/`) inserts a new key/value
pair and fails with `-EEXIST` when the key is already mapped to a
different entry, as it is here where the value is a freshly allocated
link. -/
def hashmap_put (m : List (Int × Link)) (k : Int) (v : Link) :
    Except Int (List (Int × Link)) :=
  if m.any (fun p => p.1 == k) then .error EEXIST_E else .ok (m ++ [(k, v)])

/-- `link_new`: allocate a fresh link for `ifindex` and insert it into
the registry.  `ensureOk` and `newOk` are the allocation oracles for
`hashmap_ensure_allocated` and `new0` (failure yields `-ENOMEM`). -/
def link_new (ensureOk newOk : Bool) (m : Manager) (ifindex : Int) :
    Except Int (Manager × Link) :=
  if !ensureOk then .error ENOMEM_E
  else if !newOk then .error ENOMEM_E
  else
    let l := freshLink ifindex
    match hashmap_put m.links ifindex l with
    | .error r => .error r
    | .ok links' => .ok (⟨links'⟩, l)

/-! ## Record synchronizer (`link_address_add_rrs`) -/

/-- Allocation oracle for one `link_address_add_rrs` invocation: success
of the key allocation, the forward-record allocation, the reverse-record
allocation, and the two `dns_zone_put` calls. -/
structure RrAlloc where
  keyOk : Bool
  rrOk : Bool
  ptrOk : Bool
  putAddrOk : Bool
  putPtrOk : Bool
deriving DecidableEq

/-- The state surrounding one address during record synchronization: the
manager's two lazily created host keys charging the hostname, the zones of the
two LLMNR scopes of the owning link (`none` when the scope is absent),
and the fresh-identity counter. -/
structure RrCtx where
  host_ipv4_key : Option Nat
  host_ipv6_key : Option Nat
  hostname : String
  v4zone : Option (List Nat)
  v6zone : Option (List Nat)
  ctr : Nat
deriving DecidableEq

/-- `dns_zone_put`: idempotent insertion of a record identity. -/
def dns_zone_put (z : List Nat) (i : Nat) : List Nat :=
  if i ∈ z then z else z ++ [i]

/-- `dns_zone_remove_rr`: idempotent removal of a record identity. -/
def dns_zone_remove_rr (z : List Nat) (i : Nat) : List Nat :=
  z.filter (fun x => x ≠ i)

/-- Identity of an optional record (0 is never consulted: the code only
reads it after the record exists). -/
def rrIdOf : Option DnsResourceRecord → Nat
  | some r => r.id
  | none => 0

/-- The lazy creation of one manager host key (`host_ipv4_key` /
`host_ipv6_key` in the C): returns the key to use, the stored key
option, the counter, and whether the step succeeded (`ok = false`
models a failed `dns_resource_key_new`). -/
def ensureHostKey (ok : Bool) (k : Option Nat) (c : Nat) : Nat × Option Nat × Nat × Bool :=
  match k with
  | some key => (key, some key, c, true)
  | none => if ok then (c, some c, c + 1, true) else (0, none, c, false)

/-- The lazy creation of the forward (A/AAAA) record from the host key:
skipped when the record already exists; on creation its value is the
address and the TTL the LLMNR default. -/
def ensureAddressRr (ok : Bool) (key : Nat) (a : LinkAddress) (c : Nat) :
    LinkAddress × Nat × Bool :=
  match a.llmnr_address_rr with
  | some _ => (a, c, true)
  | none =>
    if ok then
      ({ a with llmnr_address_rr := some ⟨c, key, a.in_addr, "", LLMNR_DEFAULT_TTL⟩ },
       c + 1, true)
    else (a, c, false)

/-- The lazy creation of the reverse (PTR) record
(`dns_resource_record_new_reverse`): skipped when it already exists. -/
def ensurePtrRr (ok : Bool) (hostname : String) (a : LinkAddress) (c : Nat) :
    LinkAddress × Nat × Bool :=
  match a.llmnr_ptr_rr with
  | some _ => (a, c, true)
  | none =>
    if ok then
      ({ a with llmnr_ptr_rr := some ⟨c, 0, a.in_addr, hostname, LLMNR_DEFAULT_TTL⟩ },
       c + 1, true)
    else (a, c, false)

/-- The publication step: when the address is relevant insert both
records into the zone (a failing `dns_zone_put` aborts, keeping what was
already inserted); otherwise remove both.  Returns the zone and whether
the step completed. -/
def syncZone (putAddrOk putPtrOk : Bool) (a : LinkAddress) (z : List Nat) :
    List Nat × Bool :=
  if link_address_relevant a then
    if putAddrOk then
      let z1 := dns_zone_put z (rrIdOf a.llmnr_address_rr)
      if putPtrOk then (dns_zone_put z1 (rrIdOf a.llmnr_ptr_rr), true)
      else (z1, false)
    else (z, false)
  else
    (dns_zone_remove_rr (dns_zone_remove_rr z (rrIdOf a.llmnr_address_rr))
       (rrIdOf a.llmnr_ptr_rr), true)

/-- `link_address_add_rrs`: lazily create the family host key and the
address's forward and reverse records (never recreating an existing
one), then insert both records into the family scope's zone when the
address is relevant, else remove both.  Any failure takes the `fail:`
label: the state mutated so far is kept, the rest is skipped. -/
def link_address_add_rrs (al : RrAlloc) (ctx : RrCtx) (a : LinkAddress) :
    RrCtx × LinkAddress :=
  if a.family = AF_INET then
    match ctx.v4zone with
    | none => (ctx, a)
    | some z =>
      let E := ensureHostKey al.keyOk ctx.host_ipv4_key ctx.ctr
      let ctx1 := { ctx with host_ipv4_key := E.2.1, ctr := E.2.2.1 }
      if !E.2.2.2 then (ctx1, a) else
      let R := ensureAddressRr al.rrOk E.1 a ctx1.ctr
      let ctx2 := { ctx1 with ctr := R.2.1 }
      if !R.2.2 then (ctx2, R.1) else
      let P := ensurePtrRr al.ptrOk ctx2.hostname R.1 ctx2.ctr
      let ctx3 := { ctx2 with ctr := P.2.1 }
      if !P.2.2 then (ctx3, P.1) else
      ({ ctx3 with v4zone := some (syncZone al.putAddrOk al.putPtrOk P.1 z).1 }, P.1)
  else if a.family = AF_INET6 then
    match ctx.v6zone with
    | none => (ctx, a)
    | some z =>
      let E := ensureHostKey al.keyOk ctx.host_ipv6_key ctx.ctr
      let ctx1 := { ctx with host_ipv6_key := E.2.1, ctr := E.2.2.1 }
      if !E.2.2.2 then (ctx1, a) else
      let R := ensureAddressRr al.rrOk E.1 a ctx1.ctr
      let ctx2 := { ctx1 with ctr := R.2.1 }
      if !R.2.2 then (ctx2, R.1) else
      let P := ensurePtrRr al.ptrOk ctx2.hostname R.1 ctx2.ctr
      let ctx3 := { ctx2 with ctr := P.2.1 }
      if !P.2.2 then (ctx3, P.1) else
      ({ ctx3 with v6zone := some (syncZone al.putAddrOk al.putPtrOk P.1 z).1 }, P.1)
  else (ctx, a)

/-- The `LIST_FOREACH(addresses, a, l->addresses)` loop of
`link_add_rrs`, threading the context through every address. -/
def addRrsList (al : RrAlloc) : RrCtx → List LinkAddress → RrCtx × List LinkAddress
  | ctx, [] => (ctx, [])
  | ctx, a :: rest =>
    let (ctx1, a') := link_address_add_rrs al ctx a
    let (ctx2, rest') := addRrsList al ctx1 rest
    (ctx2, a' :: rest')

/-- Write a reconciled zone back into a scope (the zone option mirrors
the scope's presence). -/
def scopeWithZone : Option DnsScope → Option (List Nat) → Option DnsScope
  | some s, some z => some { s with zone := z }
  | s, _ => s

/-- `link_add_rrs`: run the record synchronizer over every address of
the link.  `k4`/`k6` are the manager's host keys, `hostname` the
configured hostname; returns the updated keys, link and counter. -/
def link_add_rrs (al : RrAlloc) (hostname : String) (k4 k6 : Option Nat)
    (l : Link) (c : Nat) : (Option Nat × Option Nat) × Link × Nat :=
  let ctx0 : RrCtx :=
    ⟨k4, k6, hostname, l.llmnr_ipv4_scope.map (fun s => s.zone),
     l.llmnr_ipv6_scope.map (fun s => s.zone), c⟩
  let (ctxF, addrs') := addRrsList al ctx0 l.addresses
  (⟨ctxF.host_ipv4_key, ctxF.host_ipv6_key⟩,
   { l with addresses := addrs',
            llmnr_ipv4_scope := scopeWithZone l.llmnr_ipv4_scope ctxF.v4zone,
            llmnr_ipv6_scope := scopeWithZone l.llmnr_ipv6_scope ctxF.v6zone },
   ctxF.ctr)

/-- One externally triggered relevance toggle followed by a
reconciliation run: the address's flags and routing scope are set to the
reported values and the record synchronizer runs again. -/
def toggleStep (al : RrAlloc) (fl sc : Nat) (st : RrCtx × LinkAddress) :
    RrCtx × LinkAddress :=
  link_address_add_rrs al st.1 { st.2 with flags := fl, scope := sc }

/-- A sequence of relevance toggles and reconciliation runs. -/
def toggleRuns : List (RrAlloc × Nat × Nat) → RrCtx × LinkAddress → RrCtx × LinkAddress
  | [], st => st
  | (al, fl, sc) :: rest, st => toggleRuns rest (toggleStep al fl sc st)

/-! ## Notification handlers (`link_update_rtnl`,
`link_address_update_rtnl`, `link_update_monitor`) -/

/-- Decode results extracted from an incoming link notification:
`sd_rtnl_message_link_get_flags`, `sd_rtnl_message_read_u32(IFLA_MTU)`,
`sd_rtnl_message_read_string(IFLA_IFNAME)`. -/
structure RtnlLinkMessage where
  getFlags : Except Int Nat
  readMtu : Except Int Nat
  readName : Except Int String

/-- Decode results extracted from an incoming address notification. -/
structure RtnlAddrMessage where
  getFlags : Except Int Nat
  getScope : Except Int Nat

/-- The field updates of `link_update_rtnl` once the mandatory flags
field has decoded: store the flags, and store MTU and name exactly when
their decode succeeds (the name truncated to the `char name[IF_NAMESIZE]`
buffer). -/
def applyLinkMsg (msg : RtnlLinkMessage) (fl : Nat) (l : Link) : Link :=
  let l1 := { l with flags := fl }
  let l2 := match msg.readMtu with
    | .ok v => { l1 with mtu := v }
    | .error _ => l1
  match msg.readName with
  | .ok n => { l2 with name := n.take (IF_NAMESIZE - 1) }
  | .error _ => l2

/-- `link_update_rtnl`: a flags decode failure aborts the whole update
returning the error; MTU and name decode failures are ignored.  On
success the new attribute values are stored and scope/record
reconciliation runs. -/
def link_update_rtnl (use_llmnr : Bool) (op : Option String) (al : ScopeAlloc)
    (rl : RrAlloc) (hostname : String) (k4 k6 : Option Nat)
    (msg : RtnlLinkMessage) (l : Link) (c : Nat) :
    Except Int ((Option Nat × Option Nat) × Link × Nat) :=
  match msg.getFlags with
  | .error r => .error r
  | .ok fl =>
    let l3 := applyLinkMsg msg fl l
    let p := link_allocate_scopes use_llmnr op al l3 c
    .ok (link_add_rrs rl hostname k4 k6 p.1 p.2)

/-- The field updates of `link_address_update_rtnl` applied to the
address with identity `aid`: store the flags, and the routing scope
exactly when its decode succeeds. -/
def applyAddrMsg (msg : RtnlAddrMessage) (fl : Nat) (aid : Nat) (l : Link) : Link :=
  { l with addresses := l.addresses.map (fun a =>
      if a.id = aid then
        let a1 := { a with flags := fl }
        match msg.getScope with
        | .ok v => { a1 with scope := v }
        | .error _ => a1
      else a) }

/-- `link_address_update_rtnl` applied to the address with identity
`aid` owned by `l`: a flags decode failure aborts returning the error; a
routing-scope decode failure is ignored; then the owning link is
reconciled. -/
def link_address_update_rtnl (use_llmnr : Bool) (op : Option String) (al : ScopeAlloc)
    (rl : RrAlloc) (hostname : String) (k4 k6 : Option Nat)
    (msg : RtnlAddrMessage) (l : Link) (aid : Nat) (c : Nat) :
    Except Int ((Option Nat × Option Nat) × Link × Nat) :=
  match msg.getFlags with
  | .error r => .error r
  | .ok fl =>
    let l1 := applyAddrMsg msg fl aid l
    let p := link_allocate_scopes use_llmnr op al l1 c
    .ok (link_add_rrs rl hostname k4 k6 p.1 p.2)

/-- `link_update_monitor`: refresh the DNS-server list (discarding its
return code), then reconcile scopes and records; always returns 0. -/
def link_update_monitor (env : NetEnv) (use_llmnr srvNewOk : Bool) (al : ScopeAlloc)
    (rl : RrAlloc) (hostname : String) (k4 k6 : Option Nat) (l : Link) (c : Nat) :
    ((Option Nat × Option Nat) × Link × Nat) × Int :=
  let (l1, c1, _r) := link_update_dns_servers env srvNewOk l c
  let (l2, c2) := link_allocate_scopes use_llmnr (env.opState l.ifindex) al l1 c1
  (link_add_rrs rl hostname k4 k6 l2 c2, 0)

/-! ## Link destruction (`link_free`), as a trace of release events -/

/-- The observable release steps taken by `link_free` and the
`link_address_free` calls it makes. -/
inductive FreeEvent where
  | removeRR : Nat → Nat → FreeEvent
  | unrefRR : Nat → FreeEvent
  | freeAddress : Nat → FreeEvent
  | removeRegistry : Int → FreeEvent
  | freeScope : Nat → FreeEvent
  | freeServer : Nat → FreeEvent
deriving DecidableEq

/-- Zone-removal-then-unref events for one published record of an
address, targeting the family scope when it is present. -/
def rrRemoveEvents (l : Link) (a : LinkAddress) (r : DnsResourceRecord) :
    List FreeEvent :=
  (if a.family = AF_INET then
    match l.llmnr_ipv4_scope with
    | some s => [FreeEvent.removeRR s.id r.id]
    | none => []
  else if a.family = AF_INET6 then
    match l.llmnr_ipv6_scope with
    | some s => [FreeEvent.removeRR s.id r.id]
    | none => []
  else []) ++ [FreeEvent.unrefRR r.id]

/-- `link_address_free`: remove each existing record from the still-live
family scope's zone, drop the reference, then free the address. -/
def link_address_free_events (l : Link) (a : LinkAddress) : List FreeEvent :=
  (match a.llmnr_address_rr with
   | some r => rrRemoveEvents l a r
   | none => []) ++
  (match a.llmnr_ptr_rr with
   | some r => rrRemoveEvents l a r
   | none => []) ++
  [FreeEvent.freeAddress a.id]

/-- `dns_scope_free` on an optional scope. -/
def scopeFreeEvents : Option DnsScope → List FreeEvent
  | some s => [FreeEvent.freeScope s.id]
  | none => []

/-- `link_free`: free every address (while the scopes are still alive),
remove the link from the registry, free the three scopes, then free
every DNS server. -/
def link_free_events (l : Link) : List FreeEvent :=
  (l.addresses.flatMap (fun a => link_address_free_events l a)) ++
  [FreeEvent.removeRegistry l.ifindex] ++
  scopeFreeEvents l.unicast_scope ++
  scopeFreeEvents l.llmnr_ipv4_scope ++
  scopeFreeEvents l.llmnr_ipv6_scope ++
  l.dns_servers.map (fun s => FreeEvent.freeServer s.id)

/-- Phase of a release event in `link_free`'s order: the address phase,
the registry removal, the scope phase, the server phase. -/
def freePhase : FreeEvent → Nat
  | FreeEvent.removeRR _ _ => 0
  | FreeEvent.unrefRR _ => 0
  | FreeEvent.freeAddress _ => 0
  | FreeEvent.removeRegistry _ => 1
  | FreeEvent.freeScope _ => 2
  | FreeEvent.freeServer _ => 3

/-! ## Concrete instances used by witnesses and counterexamples -/

/-- A two-server link whose cursor sits on the first server. -/
def exLink : Link :=
  ⟨1, "eth0", 0, 0, [], [⟨0, 2, 10, false⟩, ⟨1, 2, 30, false⟩], some 0, none, none, none⟩

/-- An environment reporting the server strings "a" (parsing to
`(AF_INET, 10)`) and "b" (parsing to `(AF_INET, 20)`). -/
def exEnv : NetEnv :=
  ⟨fun _ => .ok ["a", "b"],
   fun n => if n = "a" then .ok (2, 10) else if n = "b" then .ok (2, 20) else .error (-22),
   fun _ => none⟩

/-- An environment whose DNS-server query fails with `-EIO`. -/
def exEnvFail : NetEnv :=
  ⟨fun _ => .error (-5), fun _ => .error (-22), fun _ => none⟩

/-- A three-server link with a null cursor. -/
def exLink3 : Link :=
  ⟨1, "", 0, 0, [], [⟨0, 2, 10, false⟩, ⟨1, 2, 20, false⟩, ⟨2, 2, 30, false⟩],
   none, none, none, none⟩

/-- A multicast-capable link with one relevant IPv4 address and one DNS
server, and no scopes yet. -/
def exLink2 : Link :=
  ⟨1, "", 0, 4096, [⟨0, 2, 7, 0, 0, none, none⟩], [⟨0, 2, 10, false⟩],
   none, none, none, none⟩

/-- A link owning one server and one scope, used to exhibit the release
order of `link_free`. -/
def exLinkFree : Link :=
  ⟨1, "", 0, 0, [], [⟨7, 2, 10, false⟩], some 7, some ⟨3, 0, 0, []⟩, none, none⟩

/-- An IPv4 address whose two records exist but are not yet published. -/
def exAddr : LinkAddress :=
  ⟨0, 2, 7, 0, 0, some ⟨40, 30, 7, "", 30⟩, some ⟨41, 0, 7, "host", 30⟩⟩

/-- A context with an IPv4 LLMNR scope whose zone is empty. -/
def exCtx : RrCtx := ⟨some 30, none, "host", some [], none, 100⟩

/-- A link message whose mandatory flags field fails to decode while
the optional MTU field decodes fine. -/
def exMsgBadFlags : RtnlLinkMessage := ⟨.error (-22), .ok 1500, .error (-22)⟩

end Resolved

namespace Resolved

/-! # Theorems -/

/-! ## C4: the relevance predicates -/

/-- Helper: the allowed-operational-state test as a disjunction. -/
theorem operationalStateGood_iff (st : String) :
    operationalStateGood st = true ↔
      (st = "unknown" ∨ st = "degraded" ∨ st = "routable") := by
  unfold operationalStateGood
  simp [Bool.or_eq_true, beq_iff_eq, or_assoc]

/-- Helper: the address scan of `link_relevant` as an existential. -/
theorem anyRelevant_iff (l : Link) (family : Int) :
    (l.addresses.any (fun a => a.family == family && link_address_relevant a)) = true ↔
      ∃ a' ∈ l.addresses, a'.family = family ∧ link_address_relevant a' = true := by
  simp [List.any_eq_true, Bool.and_eq_true, beq_iff_eq]

/-- C4: `link_relevant` is false on loopback links, false when a
reported operational state is none of "unknown"/"degraded"/"routable"
(absent state counting as relevant), and otherwise true iff some owned
address of the family is relevant; `link_address_relevant` is false iff
the deprecated flag is set or the routing scope is host-local or
nowhere. -/
theorem relevance_predicates_correct (op : Option String) (l : Link) (family : Int)
    (a : LinkAddress) :
    (link_relevant op l family = true ↔
      (l.flags &&& IFF_LOOPBACK = 0 ∧
       (∀ st, op = some st → st = "unknown" ∨ st = "degraded" ∨ st = "routable") ∧
       ∃ a' ∈ l.addresses, a'.family = family ∧ link_address_relevant a' = true)) ∧
    (link_address_relevant a = true ↔
      (a.flags &&& IFA_F_DEPRECATED = 0 ∧ a.scope ≠ RT_SCOPE_HOST ∧
       a.scope ≠ RT_SCOPE_NOWHERE)) := by
  constructor
  · constructor
    · intro h
      unfold link_relevant at h
      by_cases h1 : l.flags &&& IFF_LOOPBACK ≠ 0
      · rw [if_pos h1] at h; exact absurd h (by simp)
      · rw [if_neg h1] at h
        push_neg at h1
        cases op with
        | none =>
          rw [if_neg (by simp)] at h
          exact ⟨h1, by simp, (anyRelevant_iff l family).mp h⟩
        | some st =>
          by_cases hst : operationalStateGood st = true
          · rw [if_neg (by simp [hst])] at h
            refine ⟨h1, ?_, (anyRelevant_iff l family).mp h⟩
            intro s hs
            cases hs
            exact (operationalStateGood_iff st).mp hst
          · have hf : operationalStateGood st = false := by
              revert hst; cases operationalStateGood st <;> simp
            rw [if_pos (by simp [hf])] at h
            exact absurd h (by simp)
    · rintro ⟨h1, h2, h3⟩
      unfold link_relevant
      rw [if_neg (by simp [h1])]
      cases op with
      | none =>
        rw [if_neg (by simp)]
        exact (anyRelevant_iff l family).mpr h3
      | some st =>
        have hg := (operationalStateGood_iff st).mpr (h2 st rfl)
        rw [if_neg (by simp [hg])]
        exact (anyRelevant_iff l family).mpr h3
  · constructor
    · intro h
      unfold link_address_relevant at h
      by_cases hd : a.flags &&& IFA_F_DEPRECATED ≠ 0
      · rw [if_pos hd] at h; exact absurd h (by simp)
      · rw [if_neg hd] at h
        push_neg at hd
        by_cases hs : a.scope = RT_SCOPE_HOST ∨ a.scope = RT_SCOPE_NOWHERE
        · rw [if_pos hs] at h; exact absurd h (by simp)
        · rw [if_neg hs] at h
          push_neg at hs
          exact ⟨hd, hs.1, hs.2⟩
    · rintro ⟨hd, hs1, hs2⟩
      unfold link_address_relevant
      rw [if_neg (by simp [hd]), if_neg (by simp [hs1, hs2])]

/-- Witness for C4 at a concrete link and address. -/
theorem relevance_predicates_correct_witness :
    (link_relevant none exLink2 AF_INET = true ↔
      (exLink2.flags &&& IFF_LOOPBACK = 0 ∧
       (∀ st, (none : Option String) = some st →
          st = "unknown" ∨ st = "degraded" ∨ st = "routable") ∧
       ∃ a' ∈ exLink2.addresses, a'.family = AF_INET ∧ link_address_relevant a' = true)) ∧
    (link_address_relevant exAddr = true ↔
      (exAddr.flags &&& IFA_F_DEPRECATED = 0 ∧ exAddr.scope ≠ RT_SCOPE_HOST ∧
       exAddr.scope ≠ RT_SCOPE_NOWHERE)) :=
  relevance_predicates_correct none exLink2 AF_INET exAddr

/-! ## C6: the registration contract of `link_new` (corrected) -/

/-- C6 counterexample: with a link already registered for index 1,
`link_new` does not return the existing link — it fails with `-EEXIST`,
which is not an allocation failure. -/
theorem link_new_counterexample :
    link_new true true ⟨[((1 : Int), freshLink 1)]⟩ 1 = .error EEXIST_E ∧
    EEXIST_E ≠ ENOMEM_E ∧
    ([((1 : Int), freshLink 1)].any (fun p => p.1 == (1 : Int))) = true := by
  refine ⟨rfl, by decide, by decide⟩

/-- C6 (amended): for a positive index not yet registered, `link_new`
creates, inserts and returns a fresh link with empty address/server
lists and no scopes; for an already-registered index it fails with
`-EEXIST` instead of returning the existing link; allocation failure
yields `-ENOMEM`. -/
theorem link_new_contract (m : Manager) (ifindex : Int) (e n : Bool)
    (_hpos : 0 < ifindex) :
    (e = true → n = true → m.links.any (fun p => p.1 == ifindex) = false →
       link_new e n m ifindex =
         .ok (⟨m.links ++ [(ifindex, freshLink ifindex)]⟩, freshLink ifindex)) ∧
    (e = true → n = true → m.links.any (fun p => p.1 == ifindex) = true →
       link_new e n m ifindex = .error EEXIST_E) ∧
    ((e = false ∨ n = false) → link_new e n m ifindex = .error ENOMEM_E) ∧
    (freshLink ifindex).ifindex = ifindex ∧
    (freshLink ifindex).addresses = [] ∧
    (freshLink ifindex).dns_servers = [] ∧
    (freshLink ifindex).unicast_scope = none ∧
    (freshLink ifindex).llmnr_ipv4_scope = none ∧
    (freshLink ifindex).llmnr_ipv6_scope = none := by
  refine ⟨?_, ?_, ?_, rfl, rfl, rfl, rfl, rfl, rfl⟩
  · intro he hn habs
    simp [link_new, he, hn, hashmap_put, habs]
  · intro he hn hpres
    simp [link_new, he, hn, hashmap_put, hpres]
  · rintro (he | hn)
    · simp [link_new, he]
    · cases e <;> simp [link_new, hn]

/-- Witness for C6 (amended) at a concrete registry. -/
theorem link_new_contract_witness :
    link_new true true ⟨[((1 : Int), freshLink 1)]⟩ 2 =
      .ok (⟨[((1 : Int), freshLink 1), ((2 : Int), freshLink 2)]⟩, freshLink 2) :=
  (link_new_contract ⟨[((1 : Int), freshLink 1)]⟩ 2 true true (by decide)).1
    rfl rfl (by decide)

/-! ## C2: scope existence reconciliation -/

/-- Helper: `allocateUnicast` only touches the unicast scope field. -/
theorem allocateUnicast_frame (al : ScopeAlloc) (l : Link) (c : Nat) :
    (allocateUnicast al l c).1.ifindex = l.ifindex ∧
    (allocateUnicast al l c).1.name = l.name ∧
    (allocateUnicast al l c).1.mtu = l.mtu ∧
    (allocateUnicast al l c).1.flags = l.flags ∧
    (allocateUnicast al l c).1.addresses = l.addresses ∧
    (allocateUnicast al l c).1.dns_servers = l.dns_servers ∧
    (allocateUnicast al l c).1.current_dns_server = l.current_dns_server ∧
    (allocateUnicast al l c).1.llmnr_ipv4_scope = l.llmnr_ipv4_scope ∧
    (allocateUnicast al l c).1.llmnr_ipv6_scope = l.llmnr_ipv6_scope := by
  unfold allocateUnicast
  repeat' split
  all_goals exact ⟨rfl, rfl, rfl, rfl, rfl, rfl, rfl, rfl, rfl⟩

/-- Helper: `allocateLlmnr4` only touches the IPv4 LLMNR scope field. -/
theorem allocateLlmnr4_frame (u : Bool) (op : Option String) (al : ScopeAlloc)
    (l : Link) (c : Nat) :
    (allocateLlmnr4 u op al l c).1.ifindex = l.ifindex ∧
    (allocateLlmnr4 u op al l c).1.name = l.name ∧
    (allocateLlmnr4 u op al l c).1.mtu = l.mtu ∧
    (allocateLlmnr4 u op al l c).1.flags = l.flags ∧
    (allocateLlmnr4 u op al l c).1.addresses = l.addresses ∧
    (allocateLlmnr4 u op al l c).1.dns_servers = l.dns_servers ∧
    (allocateLlmnr4 u op al l c).1.current_dns_server = l.current_dns_server ∧
    (allocateLlmnr4 u op al l c).1.unicast_scope = l.unicast_scope ∧
    (allocateLlmnr4 u op al l c).1.llmnr_ipv6_scope = l.llmnr_ipv6_scope := by
  unfold allocateLlmnr4
  repeat' split
  all_goals exact ⟨rfl, rfl, rfl, rfl, rfl, rfl, rfl, rfl, rfl⟩

/-- Helper: `allocateLlmnr6` only touches the IPv6 LLMNR scope field. -/
theorem allocateLlmnr6_frame (u : Bool) (op : Option String) (al : ScopeAlloc)
    (l : Link) (c : Nat) :
    (allocateLlmnr6 u op al l c).1.ifindex = l.ifindex ∧
    (allocateLlmnr6 u op al l c).1.name = l.name ∧
    (allocateLlmnr6 u op al l c).1.mtu = l.mtu ∧
    (allocateLlmnr6 u op al l c).1.flags = l.flags ∧
    (allocateLlmnr6 u op al l c).1.addresses = l.addresses ∧
    (allocateLlmnr6 u op al l c).1.dns_servers = l.dns_servers ∧
    (allocateLlmnr6 u op al l c).1.current_dns_server = l.current_dns_server ∧
    (allocateLlmnr6 u op al l c).1.unicast_scope = l.unicast_scope ∧
    (allocateLlmnr6 u op al l c).1.llmnr_ipv4_scope = l.llmnr_ipv4_scope := by
  unfold allocateLlmnr6
  repeat' split
  all_goals exact ⟨rfl, rfl, rfl, rfl, rfl, rfl, rfl, rfl, rfl⟩

/-- Helper: `link_relevant` ignores the scope fields. -/
theorem link_relevant_congr (op : Option String) {l l' : Link} (hf : l'.flags = l.flags)
    (ha : l'.addresses = l.addresses) (f : Int) :
    link_relevant op l' f = link_relevant op l f := by
  unfold link_relevant
  rw [hf, ha]

/-- Helper: post-state of the unicast block when allocation succeeds. -/
theorem allocateUnicast_isSome (al : ScopeAlloc) (l : Link) (c : Nat) (h : al.uc = true) :
    (allocateUnicast al l c).1.unicast_scope.isSome = !l.dns_servers.isEmpty := by
  unfold allocateUnicast
  by_cases hs : l.dns_servers ≠ []
  · rw [if_pos hs]
    have : l.dns_servers.isEmpty = false := by
      cases hd : l.dns_servers with
      | nil => exact absurd hd hs
      | cons x xs => rfl
    cases hu : l.unicast_scope with
    | some s => simp [hu, this]
    | none => simp [h, this]
  · rw [if_neg hs]
    push_neg at hs
    simp [hs]

/-- Helper: the unicast block is a no-op when the scope already matches. -/
theorem allocateUnicast_noop (al : ScopeAlloc) (l : Link) (c : Nat)
    (h : l.unicast_scope.isSome = !l.dns_servers.isEmpty) :
    allocateUnicast al l c = (l, c) := by
  unfold allocateUnicast
  by_cases hs : l.dns_servers ≠ []
  · rw [if_pos hs]
    have he : l.dns_servers.isEmpty = false := by
      cases hd : l.dns_servers with
      | nil => exact absurd hd hs
      | cons x xs => rfl
    rw [he] at h
    cases hu : l.unicast_scope with
    | some s => rfl
    | none => rw [hu] at h; simp at h
  · rw [if_neg hs]
    push_neg at hs
    rw [hs] at h
    simp only [List.isEmpty_nil, Bool.not_true] at h
    have hn : l.unicast_scope = none := by
      cases hu : l.unicast_scope with
      | none => rfl
      | some s => rw [hu] at h; simp at h
    rw [← hn]

/-- Helper: post-state of the IPv4 LLMNR block when allocation succeeds. -/
theorem allocateLlmnr4_isSome (u : Bool) (op : Option String) (al : ScopeAlloc)
    (l : Link) (c : Nat) (h : al.v4 = true) :
    (allocateLlmnr4 u op al l c).1.llmnr_ipv4_scope.isSome =
      decide (link_relevant op l AF_INET ∧ l.flags &&& IFF_MULTICAST ≠ 0 ∧ u) := by
  unfold allocateLlmnr4
  by_cases hc : link_relevant op l AF_INET ∧ l.flags &&& IFF_MULTICAST ≠ 0 ∧ u
  · rw [if_pos hc]
    cases hu : l.llmnr_ipv4_scope with
    | some s => simp [hu, hc]
    | none => simp [h, hc]
  · rw [if_neg hc]
    simp [hc]

/-- Helper: the IPv4 LLMNR block is a no-op when the scope matches. -/
theorem allocateLlmnr4_noop (u : Bool) (op : Option String) (al : ScopeAlloc)
    (l : Link) (c : Nat)
    (h : l.llmnr_ipv4_scope.isSome =
      decide (link_relevant op l AF_INET ∧ l.flags &&& IFF_MULTICAST ≠ 0 ∧ u)) :
    allocateLlmnr4 u op al l c = (l, c) := by
  unfold allocateLlmnr4
  by_cases hc : link_relevant op l AF_INET ∧ l.flags &&& IFF_MULTICAST ≠ 0 ∧ u
  · rw [if_pos hc]
    rw [decide_eq_true hc] at h
    cases hu : l.llmnr_ipv4_scope with
    | some s => rfl
    | none => rw [hu] at h; simp at h
  · rw [if_neg hc]
    rw [decide_eq_false hc] at h
    have hn : l.llmnr_ipv4_scope = none := by
      cases hu : l.llmnr_ipv4_scope with
      | none => rfl
      | some s => rw [hu] at h; simp at h
    rw [← hn]

/-- Helper: post-state of the IPv6 LLMNR block when allocation succeeds. -/
theorem allocateLlmnr6_isSome (u : Bool) (op : Option String) (al : ScopeAlloc)
    (l : Link) (c : Nat) (h : al.v6 = true) :
    (allocateLlmnr6 u op al l c).1.llmnr_ipv6_scope.isSome =
      decide (link_relevant op l AF_INET6 ∧ l.flags &&& IFF_MULTICAST ≠ 0 ∧ u) := by
  unfold allocateLlmnr6
  by_cases hc : link_relevant op l AF_INET6 ∧ l.flags &&& IFF_MULTICAST ≠ 0 ∧ u
  · rw [if_pos hc]
    cases hu : l.llmnr_ipv6_scope with
    | some s => simp [hu, hc]
    | none => simp [h, hc]
  · rw [if_neg hc]
    simp [hc]

/-- Helper: the IPv6 LLMNR block is a no-op when the scope matches. -/
theorem allocateLlmnr6_noop (u : Bool) (op : Option String) (al : ScopeAlloc)
    (l : Link) (c : Nat)
    (h : l.llmnr_ipv6_scope.isSome =
      decide (link_relevant op l AF_INET6 ∧ l.flags &&& IFF_MULTICAST ≠ 0 ∧ u)) :
    allocateLlmnr6 u op al l c = (l, c) := by
  unfold allocateLlmnr6
  by_cases hc : link_relevant op l AF_INET6 ∧ l.flags &&& IFF_MULTICAST ≠ 0 ∧ u
  · rw [if_pos hc]
    rw [decide_eq_true hc] at h
    cases hu : l.llmnr_ipv6_scope with
    | some s => rfl
    | none => rw [hu] at h; simp at h
  · rw [if_neg hc]
    rw [decide_eq_false hc] at h
    have hn : l.llmnr_ipv6_scope = none := by
      cases hu : l.llmnr_ipv6_scope with
      | none => rfl
      | some s => rw [hu] at h; simp at h
    rw [← hn]

/-- C2: after a run of `link_allocate_scopes` with succeeding
allocations, the unicast scope exists iff the DNS-server list is
non-empty and each LLMNR scope exists iff the link is relevant for the
family, multicast-capable and LLMNR is enabled; when the scopes already
match these conditions the run is a no-op (no deallocation or
reallocation), whatever the allocator does. -/
theorem scope_allocation_correct (u : Bool) (op : Option String) (al : ScopeAlloc)
    (l : Link) (c : Nat) (hal : al = ⟨true, true, true⟩) :
    ((link_allocate_scopes u op al l c).1.unicast_scope.isSome
        = !l.dns_servers.isEmpty) ∧
    ((link_allocate_scopes u op al l c).1.llmnr_ipv4_scope.isSome
        = (link_relevant op l AF_INET && decide (l.flags &&& IFF_MULTICAST ≠ 0) && u)) ∧
    ((link_allocate_scopes u op al l c).1.llmnr_ipv6_scope.isSome
        = (link_relevant op l AF_INET6 && decide (l.flags &&& IFF_MULTICAST ≠ 0) && u)) ∧
    (∀ al' : ScopeAlloc, scopesMatch u op l →
        link_allocate_scopes u op al' l c = (l, c)) := by
  subst hal
  have hunf : ∀ (al' : ScopeAlloc),
      link_allocate_scopes u op al' l c =
        allocateLlmnr6 u op al'
          (allocateLlmnr4 u op al' (allocateUnicast al' l c).1 (allocateUnicast al' l c).2).1
          (allocateLlmnr4 u op al' (allocateUnicast al' l c).1 (allocateUnicast al' l c).2).2 :=
    fun _ => rfl
  obtain ⟨-, -, -, h1f, h1a, h1d, -, -, -⟩ :=
    allocateUnicast_frame ⟨true, true, true⟩ l c
  obtain ⟨-, -, -, h4f, h4a, -, -, h4u, h4v6⟩ :=
    allocateLlmnr4_frame u op ⟨true, true, true⟩
      (allocateUnicast ⟨true, true, true⟩ l c).1 (allocateUnicast ⟨true, true, true⟩ l c).2
  obtain ⟨-, -, -, -, -, -, -, h6u, h6v4⟩ :=
    allocateLlmnr6_frame u op ⟨true, true, true⟩
      (allocateLlmnr4 u op ⟨true, true, true⟩ (allocateUnicast ⟨true, true, true⟩ l c).1
        (allocateUnicast ⟨true, true, true⟩ l c).2).1
      (allocateLlmnr4 u op ⟨true, true, true⟩ (allocateUnicast ⟨true, true, true⟩ l c).1
        (allocateUnicast ⟨true, true, true⟩ l c).2).2
  refine ⟨?_, ?_, ?_, ?_⟩
  · rw [hunf, h6u, h4u]
    exact allocateUnicast_isSome ⟨true, true, true⟩ l c rfl
  · rw [hunf, h6v4]
    rw [allocateLlmnr4_isSome u op ⟨true, true, true⟩ _ _ rfl]
    rw [link_relevant_congr op h1f h1a AF_INET, h1f]
    simp [Bool.decide_and, Bool.and_assoc]
  · rw [hunf]
    rw [allocateLlmnr6_isSome u op ⟨true, true, true⟩ _ _ rfl]
    have hrel : link_relevant op
        (allocateLlmnr4 u op ⟨true, true, true⟩ (allocateUnicast ⟨true, true, true⟩ l c).1
          (allocateUnicast ⟨true, true, true⟩ l c).2).1 AF_INET6
        = link_relevant op l AF_INET6 := by
      rw [link_relevant_congr op h4f h4a AF_INET6]
      exact link_relevant_congr op h1f h1a AF_INET6
    rw [hrel, h4f, h1f]
    simp [Bool.decide_and, Bool.and_assoc]
  · intro al' hm
    obtain ⟨hm1, hm2, hm3⟩ := hm
    have e1 : allocateUnicast al' l c = (l, c) := allocateUnicast_noop al' l c hm1
    have e2 : allocateLlmnr4 u op al' l c = (l, c) := by
      refine allocateLlmnr4_noop u op al' l c ?_
      rw [hm2]
      simp [Bool.decide_and, Bool.and_assoc]
    have e3 : allocateLlmnr6 u op al' l c = (l, c) := by
      refine allocateLlmnr6_noop u op al' l c ?_
      rw [hm3]
      simp [Bool.decide_and, Bool.and_assoc]
    rw [hunf al']
    simp only [e1, e2, e3]

/-- Witness for C2 at a concrete multicast link with one server and one
relevant IPv4 address. -/
theorem scope_allocation_correct_witness :
    ((link_allocate_scopes true none ⟨true, true, true⟩ exLink2 50).1.unicast_scope.isSome
        = !exLink2.dns_servers.isEmpty) ∧
    ((link_allocate_scopes true none ⟨true, true, true⟩ exLink2 50).1.llmnr_ipv4_scope.isSome
        = (link_relevant none exLink2 AF_INET &&
           decide (exLink2.flags &&& IFF_MULTICAST ≠ 0) && true)) ∧
    ((link_allocate_scopes true none ⟨true, true, true⟩ exLink2 50).1.llmnr_ipv6_scope.isSome
        = (link_relevant none exLink2 AF_INET6 &&
           decide (exLink2.flags &&& IFF_MULTICAST ≠ 0) && true)) ∧
    (∀ al' : ScopeAlloc, scopesMatch true none exLink2 →
        link_allocate_scopes true none al' exLink2 50 = (exLink2, 50)) :=
  scope_allocation_correct true none ⟨true, true, true⟩ exLink2 50 rfl

/-! ## C5: the round-robin cursor -/

/-- Helper: identity of the head of a non-empty server list. -/
theorem headServerId_get (ss : List DnsServer) (h : 0 < ss.length) :
    headServerId ss = some ((ss.get ⟨0, h⟩).id) := by
  cases ss with
  | nil => simp at h
  | cons s rest => rfl

/-- Helper: `link_next_dns_server` does not change the server list. -/
theorem link_next_dns_server_frame (l : Link) :
    (link_next_dns_server l).dns_servers = l.dns_servers := by
  unfold link_next_dns_server
  repeat' split
  all_goals rfl

/-- Helper: iterated advancing does not change the server list. -/
theorem advanceN_frame (l : Link) (k : Nat) :
    (advanceN l k).dns_servers = l.dns_servers := by
  induction k with
  | zero => rfl
  | succ k ih => rw [advanceN, link_next_dns_server_frame, ih]

/-- Helper: the linked-list successor of the `i`-th entry, for a list
with pairwise distinct identities. -/
theorem nextServerId_get (ss : List DnsServer)
    (hnd : (ss.map (fun s => s.id)).Nodup) (i : Nat) (hi : i < ss.length) :
    nextServerId ss ((ss.get ⟨i, hi⟩).id) =
      if h : i + 1 < ss.length then some ((ss.get ⟨i + 1, h⟩).id) else none := by
  induction ss generalizing i with
  | nil => simp at hi
  | cons s rest ih =>
    cases i with
    | zero =>
      cases rest with
      | nil => simp [nextServerId]
      | cons t ts => simp [nextServerId]
    | succ j =>
      cases rest with
      | nil => simp at hi
      | cons t ts =>
        have hj : j < (t :: ts).length := by simpa using hi
        rw [List.map_cons] at hnd
        have hsid : s.id ∉ (t :: ts).map (fun s => s.id) := (List.nodup_cons.mp hnd).1
        have hmem : (((t :: ts).get ⟨j, hj⟩).id) ∈ (t :: ts).map (fun s => s.id) :=
          List.mem_map.mpr ⟨(t :: ts).get ⟨j, hj⟩, List.get_mem _ _ _, rfl⟩
        have hne : s.id ≠ (((t :: ts).get ⟨j, hj⟩).id) := by
          intro he; exact hsid (he ▸ hmem)
        have hstep : nextServerId (s :: t :: ts) (((t :: ts).get ⟨j, hj⟩).id) =
            nextServerId (t :: ts) (((t :: ts).get ⟨j, hj⟩).id) := by
          simp only [nextServerId]
          rw [if_neg hne]
        have hget : ((s :: t :: ts).get ⟨j + 1, hi⟩) = ((t :: ts).get ⟨j, hj⟩) := rfl
        rw [hget, hstep, ih (List.Nodup.of_cons hnd) j hj]
        by_cases h2 : j + 1 + 1 < (s :: t :: ts).length
        · have h1 : j + 1 < (t :: ts).length := by simpa using h2
          rw [dif_pos h1, dif_pos h2]
          rfl
        · have h1 : ¬ (j + 1 < (t :: ts).length) := by
            simp only [List.length_cons] at h2 ⊢
            omega
          rw [dif_neg h1, dif_neg h2]

/-- Helper: one advance from the `i`-th server moves the cursor to the
`(i+1) mod N`-th server (`ss` abbreviates the unchanged server list). -/
theorem link_next_from_get (l : Link) (ss : List DnsServer)
    (hss : l.dns_servers = ss)
    (hnd : (ss.map (fun s => s.id)).Nodup)
    (i : Nat) (hi : i < ss.length)
    (hcur : l.current_dns_server = some ((ss.get ⟨i, hi⟩).id)) :
    (link_next_dns_server l).current_dns_server =
      some ((ss.get ⟨(i + 1) % ss.length,
        Nat.mod_lt _ (Nat.lt_of_le_of_lt (Nat.zero_le i) hi)⟩).id) := by
  subst hss
  unfold link_next_dns_server
  rw [hcur]
  simp only
  rw [nextServerId_get l.dns_servers hnd i hi]
  by_cases h : i + 1 < l.dns_servers.length
  · rw [dif_pos h]
    have hm : (i + 1) % l.dns_servers.length = i + 1 := Nat.mod_eq_of_lt h
    simp only [hm]
  · rw [dif_neg h]
    have hlen : i + 1 = l.dns_servers.length := by omega
    have hm : (i + 1) % l.dns_servers.length = 0 := by
      rw [hlen, Nat.mod_self]
    simp only [hm]
    exact headServerId_get l.dns_servers (Nat.lt_of_le_of_lt (Nat.zero_le i) hi)

/-- C5: with a null cursor `link_next_dns_server` only sets the cursor
to the list head; from the `i`-th server it advances to the successor,
wrapping at the end; hence starting from a null cursor, call `k+1`
(for `k ≤ N`) leaves the cursor on server `k mod N`: the first `N` calls
visit each server exactly once and call `N+1` repeats the first. -/
theorem round_robin_cursor (l : Link)
    (hnd : (l.dns_servers.map (fun s => s.id)).Nodup)
    (hne : 0 < l.dns_servers.length) :
    (l.current_dns_server = none →
       (link_next_dns_server l).current_dns_server = headServerId l.dns_servers) ∧
    (∀ i (hi : i < l.dns_servers.length),
       l.current_dns_server = some ((l.dns_servers.get ⟨i, hi⟩).id) →
       (link_next_dns_server l).current_dns_server =
         some ((l.dns_servers.get ⟨(i + 1) % l.dns_servers.length,
           Nat.mod_lt _ (Nat.lt_of_le_of_lt (Nat.zero_le i) hi)⟩).id)) ∧
    (l.current_dns_server = none →
       ∀ k, k ≤ l.dns_servers.length →
       (advanceN l (k + 1)).current_dns_server =
         some ((l.dns_servers.get ⟨k % l.dns_servers.length, Nat.mod_lt _ hne⟩).id)) := by
  refine ⟨?_, ?_, ?_⟩
  · intro h0
    unfold link_next_dns_server
    rw [h0]
  · intro i hi hcur
    exact link_next_from_get l l.dns_servers rfl hnd i hi hcur
  · intro h0 k
    induction k with
    | zero =>
      intro _
      show (link_next_dns_server (advanceN l 0)).current_dns_server = _
      unfold advanceN link_next_dns_server
      rw [h0]
      simp only [Nat.zero_mod]
      exact headServerId_get l.dns_servers hne
    | succ j ih =>
      intro hk
      have hj : j ≤ l.dns_servers.length := Nat.le_of_succ_le hk
      have hcur := ih hj
      have hl' : (advanceN l (j + 1)).dns_servers = l.dns_servers := advanceN_frame l (j + 1)
      have hjm : j % l.dns_servers.length < l.dns_servers.length := Nat.mod_lt _ hne
      have hstep := link_next_from_get (advanceN l (j + 1)) l.dns_servers hl' hnd
        (j % l.dns_servers.length) hjm hcur
      show (link_next_dns_server (advanceN l (j + 1))).current_dns_server = _
      rw [hstep]
      simp only [Nat.mod_add_mod]

/-- Witness for C5: three servers, four advances, cursor returns to the
first server. -/
theorem round_robin_cursor_witness :
    (advanceN exLink3 4).current_dns_server =
      some ((exLink3.dns_servers.get ⟨3 % exLink3.dns_servers.length,
        Nat.mod_lt _ (by decide)⟩).id) :=
  (round_robin_cursor exLink3 (by decide) (by decide)).2.2 rfl 3 (by decide)

/-! ## C3: record create-once -/

/-- Helper: a succeeding key oracle makes the key step succeed. -/
theorem ensureHostKey_ok (k : Option Nat) (c : Nat) :
    (ensureHostKey true k c).2.2.2 = true := by
  unfold ensureHostKey
  cases k <;> simp

/-- Helper: the key step never fails when a key already exists. -/
theorem ensureHostKey_some (ok : Bool) (key : Nat) (c : Nat) :
    ensureHostKey ok (some key) c = (key, some key, c, true) := rfl

/-- Helper: the forward-record step is the identity when the record
already exists. -/
theorem ensureAddressRr_some (ok : Bool) (key : Nat) (a : LinkAddress) (c : Nat)
    (r : DnsResourceRecord) (h : a.llmnr_address_rr = some r) :
    ensureAddressRr ok key a c = (a, c, true) := by
  unfold ensureAddressRr
  rw [h]

/-- Helper: the reverse-record step is the identity when the record
already exists. -/
theorem ensurePtrRr_some (ok : Bool) (hostname : String) (a : LinkAddress) (c : Nat)
    (r : DnsResourceRecord) (h : a.llmnr_ptr_rr = some r) :
    ensurePtrRr ok hostname a c = (a, c, true) := by
  unfold ensurePtrRr
  rw [h]

/-- Helper: the forward-record step never changes the other address
fields and never replaces an existing record. -/
theorem ensureAddressRr_fields (ok : Bool) (key : Nat) (a : LinkAddress) (c : Nat) :
    (ensureAddressRr ok key a c).1.id = a.id ∧
    (ensureAddressRr ok key a c).1.family = a.family ∧
    (ensureAddressRr ok key a c).1.in_addr = a.in_addr ∧
    (ensureAddressRr ok key a c).1.flags = a.flags ∧
    (ensureAddressRr ok key a c).1.scope = a.scope ∧
    (∀ r, a.llmnr_address_rr = some r →
       (ensureAddressRr ok key a c).1.llmnr_address_rr = some r) ∧
    (ensureAddressRr ok key a c).1.llmnr_ptr_rr = a.llmnr_ptr_rr := by
  obtain ⟨aid, af, av, afl, asc, ar, ap⟩ := a
  unfold ensureAddressRr
  cases ar with
  | some r => simp
  | none => cases ok <;> simp

/-- Helper: the reverse-record step never changes the other address
fields and never replaces an existing record. -/
theorem ensurePtrRr_fields (ok : Bool) (hostname : String) (a : LinkAddress) (c : Nat) :
    (ensurePtrRr ok hostname a c).1.id = a.id ∧
    (ensurePtrRr ok hostname a c).1.family = a.family ∧
    (ensurePtrRr ok hostname a c).1.in_addr = a.in_addr ∧
    (ensurePtrRr ok hostname a c).1.flags = a.flags ∧
    (ensurePtrRr ok hostname a c).1.scope = a.scope ∧
    (ensurePtrRr ok hostname a c).1.llmnr_address_rr = a.llmnr_address_rr ∧
    (∀ r, a.llmnr_ptr_rr = some r →
       (ensurePtrRr ok hostname a c).1.llmnr_ptr_rr = some r) := by
  obtain ⟨aid, af, av, afl, asc, ar, ap⟩ := a
  unfold ensurePtrRr
  cases ap with
  | some r => simp
  | none => cases ok <;> simp

/-- Helper: one run of the record synchronizer never changes an
address's identity, family, value, flags or routing scope, and never
replaces an existing forward or reverse record. -/
theorem link_address_add_rrs_preserves (al : RrAlloc) (ctx : RrCtx) (a : LinkAddress) :
    (link_address_add_rrs al ctx a).2.id = a.id ∧
    (link_address_add_rrs al ctx a).2.family = a.family ∧
    (link_address_add_rrs al ctx a).2.in_addr = a.in_addr ∧
    (link_address_add_rrs al ctx a).2.flags = a.flags ∧
    (link_address_add_rrs al ctx a).2.scope = a.scope ∧
    (∀ r, a.llmnr_address_rr = some r →
       (link_address_add_rrs al ctx a).2.llmnr_address_rr = some r) ∧
    (∀ r, a.llmnr_ptr_rr = some r →
       (link_address_add_rrs al ctx a).2.llmnr_ptr_rr = some r) := by
  have triv : ∀ ctx' : RrCtx,
      ((ctx', a) : RrCtx × LinkAddress).2.id = a.id ∧
      ((ctx', a) : RrCtx × LinkAddress).2.family = a.family ∧
      ((ctx', a) : RrCtx × LinkAddress).2.in_addr = a.in_addr ∧
      ((ctx', a) : RrCtx × LinkAddress).2.flags = a.flags ∧
      ((ctx', a) : RrCtx × LinkAddress).2.scope = a.scope ∧
      (∀ r, a.llmnr_address_rr = some r →
         ((ctx', a) : RrCtx × LinkAddress).2.llmnr_address_rr = some r) ∧
      (∀ r, a.llmnr_ptr_rr = some r →
         ((ctx', a) : RrCtx × LinkAddress).2.llmnr_ptr_rr = some r) :=
    fun _ => ⟨rfl, rfl, rfl, rfl, rfl, fun _ h => h, fun _ h => h⟩
  have chain : ∀ (okR : Bool) (key : Nat) (okP : Bool) (hostname : String) (cR cP : Nat),
      ∀ P1 : LinkAddress,
      P1 = (ensurePtrRr okP hostname (ensureAddressRr okR key a cR).1 cP).1 →
      P1.id = a.id ∧ P1.family = a.family ∧ P1.in_addr = a.in_addr ∧
      P1.flags = a.flags ∧ P1.scope = a.scope ∧
      (∀ r, a.llmnr_address_rr = some r → P1.llmnr_address_rr = some r) ∧
      (∀ r, a.llmnr_ptr_rr = some r → P1.llmnr_ptr_rr = some r) := by
    intro okR key okP hostname cR cP P1 hP1
    obtain ⟨r1, r2, r3, r4, r5, r6, r7⟩ := ensureAddressRr_fields okR key a cR
    obtain ⟨p1, p2, p3, p4, p5, p6, p7⟩ :=
      ensurePtrRr_fields okP hostname (ensureAddressRr okR key a cR).1 cP
    subst hP1
    refine ⟨p1.trans r1, p2.trans r2, p3.trans r3, p4.trans r4, p5.trans r5, ?_, ?_⟩
    · intro r h
      rw [p6]
      exact r6 r h
    · intro r h
      refine p7 r ?_
      rw [r7]
      exact h
  unfold link_address_add_rrs
  by_cases hf4 : a.family = AF_INET
  · rw [if_pos hf4]
    cases hz : ctx.v4zone with
    | none => exact triv ctx
    | some z =>
      simp only
      by_cases hk : (ensureHostKey al.keyOk ctx.host_ipv4_key ctx.ctr).2.2.2 = true
      · rw [hk]
        simp only [Bool.not_true, Bool.false_eq_true, if_false]
        by_cases hr : (ensureAddressRr al.rrOk
            (ensureHostKey al.keyOk ctx.host_ipv4_key ctx.ctr).1 a
            (ensureHostKey al.keyOk ctx.host_ipv4_key ctx.ctr).2.2.1).2.2 = true
        · rw [hr]
          simp only [Bool.not_true, Bool.false_eq_true, if_false]
          obtain ⟨r1, r2, r3, r4, r5, r6, r7⟩ := ensureAddressRr_fields al.rrOk
            (ensureHostKey al.keyOk ctx.host_ipv4_key ctx.ctr).1 a
            (ensureHostKey al.keyOk ctx.host_ipv4_key ctx.ctr).2.2.1
          split
          · exact chain _ _ _ _ _ _ _ rfl
          · exact chain _ _ _ _ _ _ _ rfl
        · have hrf : (ensureAddressRr al.rrOk
              (ensureHostKey al.keyOk ctx.host_ipv4_key ctx.ctr).1 a
              (ensureHostKey al.keyOk ctx.host_ipv4_key ctx.ctr).2.2.1).2.2 = false := by
            revert hr; cases (ensureAddressRr al.rrOk
              (ensureHostKey al.keyOk ctx.host_ipv4_key ctx.ctr).1 a
              (ensureHostKey al.keyOk ctx.host_ipv4_key ctx.ctr).2.2.1).2.2 <;> simp
          rw [hrf]
          simp only [Bool.not_false, if_true]
          obtain ⟨r1, r2, r3, r4, r5, r6, r7⟩ := ensureAddressRr_fields al.rrOk
            (ensureHostKey al.keyOk ctx.host_ipv4_key ctx.ctr).1 a
            (ensureHostKey al.keyOk ctx.host_ipv4_key ctx.ctr).2.2.1
          exact ⟨r1, r2, r3, r4, r5, r6, fun r h => by rw [r7]; exact h⟩
      · have hkf : (ensureHostKey al.keyOk ctx.host_ipv4_key ctx.ctr).2.2.2 = false := by
          revert hk
          cases (ensureHostKey al.keyOk ctx.host_ipv4_key ctx.ctr).2.2.2 <;> simp
        rw [hkf]
        simp only [Bool.not_false, if_true]
        exact ⟨trivial, trivial, trivial, trivial, trivial, fun _ h => h, fun _ h => h⟩
  · rw [if_neg hf4]
    by_cases hf6 : a.family = AF_INET6
    · rw [if_pos hf6]
      cases hz : ctx.v6zone with
      | none => exact triv ctx
      | some z =>
        simp only
        by_cases hk : (ensureHostKey al.keyOk ctx.host_ipv6_key ctx.ctr).2.2.2 = true
        · rw [hk]
          simp only [Bool.not_true, Bool.false_eq_true, if_false]
          by_cases hr : (ensureAddressRr al.rrOk
              (ensureHostKey al.keyOk ctx.host_ipv6_key ctx.ctr).1 a
              (ensureHostKey al.keyOk ctx.host_ipv6_key ctx.ctr).2.2.1).2.2 = true
          · rw [hr]
            simp only [Bool.not_true, Bool.false_eq_true, if_false]
            split
            · exact chain _ _ _ _ _ _ _ rfl
            · exact chain _ _ _ _ _ _ _ rfl
          · have hrf : (ensureAddressRr al.rrOk
                (ensureHostKey al.keyOk ctx.host_ipv6_key ctx.ctr).1 a
                (ensureHostKey al.keyOk ctx.host_ipv6_key ctx.ctr).2.2.1).2.2 = false := by
              revert hr; cases (ensureAddressRr al.rrOk
                (ensureHostKey al.keyOk ctx.host_ipv6_key ctx.ctr).1 a
                (ensureHostKey al.keyOk ctx.host_ipv6_key ctx.ctr).2.2.1).2.2 <;> simp
            rw [hrf]
            simp only [Bool.not_false, if_true]
            obtain ⟨r1, r2, r3, r4, r5, r6, r7⟩ := ensureAddressRr_fields al.rrOk
              (ensureHostKey al.keyOk ctx.host_ipv6_key ctx.ctr).1 a
              (ensureHostKey al.keyOk ctx.host_ipv6_key ctx.ctr).2.2.1
            exact ⟨r1, r2, r3, r4, r5, r6, fun r h => by rw [r7]; exact h⟩
        · have hkf : (ensureHostKey al.keyOk ctx.host_ipv6_key ctx.ctr).2.2.2 = false := by
            revert hk
            cases (ensureHostKey al.keyOk ctx.host_ipv6_key ctx.ctr).2.2.2 <;> simp
          rw [hkf]
          simp only [Bool.not_false, if_true]
          exact ⟨trivial, trivial, trivial, trivial, trivial, fun _ h => h, fun _ h => h⟩
    · rw [if_neg hf6]
      exact triv ctx

/-- C3: across any sequence of relevance toggles and reconciliation
runs, an address's forward and reverse records, once created, are never
recreated — the record identities (and the address's identity, family
and value) are stable; the runs only change zone membership. -/
theorem record_create_once (steps : List (RrAlloc × Nat × Nat)) (ctx : RrCtx)
    (a : LinkAddress) :
    (∀ r, a.llmnr_address_rr = some r →
       (toggleRuns steps (ctx, a)).2.llmnr_address_rr = some r) ∧
    (∀ r, a.llmnr_ptr_rr = some r →
       (toggleRuns steps (ctx, a)).2.llmnr_ptr_rr = some r) ∧
    (toggleRuns steps (ctx, a)).2.id = a.id ∧
    (toggleRuns steps (ctx, a)).2.family = a.family ∧
    (toggleRuns steps (ctx, a)).2.in_addr = a.in_addr := by
  induction steps generalizing ctx a with
  | nil => exact ⟨fun _ h => h, fun _ h => h, rfl, rfl, rfl⟩
  | cons s rest ih =>
    obtain ⟨al, fl, sc⟩ := s
    obtain ⟨h1, h2, h3, h4, h5, h6, h7⟩ :=
      link_address_add_rrs_preserves al ctx { a with flags := fl, scope := sc }
    obtain ⟨i1, i2, i3, i4, i5⟩ :=
      ih (link_address_add_rrs al ctx { a with flags := fl, scope := sc }).1
        (link_address_add_rrs al ctx { a with flags := fl, scope := sc }).2
    exact ⟨fun r hr => i1 r (h6 r hr), fun r hr => i2 r (h7 r hr),
      i3.trans h1, i4.trans h2, i5.trans h3⟩

/-- Witness for C3: two toggles (deprecate, then un-deprecate) of an
address whose records exist. -/
theorem record_create_once_witness :
    (∀ r, exAddr.llmnr_address_rr = some r →
       (toggleRuns [(⟨true, true, true, true, true⟩, 32, 0),
                    (⟨true, true, true, true, true⟩, 0, 0)]
          (exCtx, exAddr)).2.llmnr_address_rr = some r) ∧
    (∀ r, exAddr.llmnr_ptr_rr = some r →
       (toggleRuns [(⟨true, true, true, true, true⟩, 32, 0),
                    (⟨true, true, true, true, true⟩, 0, 0)]
          (exCtx, exAddr)).2.llmnr_ptr_rr = some r) ∧
    (toggleRuns [(⟨true, true, true, true, true⟩, 32, 0),
                 (⟨true, true, true, true, true⟩, 0, 0)]
       (exCtx, exAddr)).2.id = exAddr.id ∧
    (toggleRuns [(⟨true, true, true, true, true⟩, 32, 0),
                 (⟨true, true, true, true, true⟩, 0, 0)]
       (exCtx, exAddr)).2.family = exAddr.family ∧
    (toggleRuns [(⟨true, true, true, true, true⟩, 32, 0),
                 (⟨true, true, true, true, true⟩, 0, 0)]
       (exCtx, exAddr)).2.in_addr = exAddr.in_addr :=
  record_create_once [(⟨true, true, true, true, true⟩, 32, 0),
                      (⟨true, true, true, true, true⟩, 0, 0)] exCtx exAddr

/-! ## C10: record publication is not atomic per address -/

/-- Helper: `dns_zone_put` publishes the inserted record. -/
theorem dns_zone_put_mem_self (z : List Nat) (i : Nat) : i ∈ dns_zone_put z i := by
  unfold dns_zone_put
  split
  · assumption
  · simp

/-- Helper: `dns_zone_put` publishes nothing else. -/
theorem dns_zone_put_mem_other (z : List Nat) (i j : Nat) (hj : j ∉ z) (hne : j ≠ i) :
    j ∉ dns_zone_put z i := by
  unfold dns_zone_put
  split
  · exact hj
  · intro hmem
    rcases List.mem_append.mp hmem with h | h
    · exact hj h
    · exact hne (by simpa using h)

/-- C10: for a relevant IPv4 address with both records already created,
if inserting the forward record into the scope's zone succeeds but
inserting the reverse record fails, the function returns with the
forward record published and the reverse record unpublished, and no
rollback happens. -/
theorem partial_publication (al : RrAlloc) (ctx : RrCtx) (a : LinkAddress)
    (z : List Nat) (r1 r2 : DnsResourceRecord)
    (hf : a.family = AF_INET) (hz : ctx.v4zone = some z)
    (h1 : a.llmnr_address_rr = some r1) (h2 : a.llmnr_ptr_rr = some r2)
    (hrel : link_address_relevant a = true)
    (hkey : al.keyOk = true)
    (hpa : al.putAddrOk = true) (hpp : al.putPtrOk = false)
    (hr2 : r2.id ∉ z) (hne : r2.id ≠ r1.id) :
    (link_address_add_rrs al ctx a).1.v4zone = some (dns_zone_put z r1.id) ∧
    r1.id ∈ dns_zone_put z r1.id ∧
    r2.id ∉ dns_zone_put z r1.id ∧
    (link_address_add_rrs al ctx a).2 = a := by
  have hE : (ensureHostKey al.keyOk ctx.host_ipv4_key ctx.ctr).2.2.2 = true := by
    rw [hkey]; exact ensureHostKey_ok _ _
  have hsync : syncZone al.putAddrOk al.putPtrOk a z = (dns_zone_put z r1.id, false) := by
    unfold syncZone
    rw [if_pos hrel, if_pos hpa, if_neg (by simp [hpp]), h1]
    rfl
  have hres : (link_address_add_rrs al ctx a).1.v4zone =
        some (dns_zone_put z r1.id) ∧
      (link_address_add_rrs al ctx a).2 = a := by
    unfold link_address_add_rrs
    rw [if_pos hf, hz]
    simp only
    rw [hE]
    simp only [Bool.not_true, Bool.false_eq_true, if_false]
    rw [ensureAddressRr_some al.rrOk _ a _ r1 h1]
    simp only
    rw [ensurePtrRr_some al.ptrOk _ a _ r2 h2]
    simp only [Bool.not_true, Bool.false_eq_true, if_false]
    rw [hsync]
    exact ⟨rfl, trivial⟩
  exact ⟨hres.1, dns_zone_put_mem_self z r1.id,
    dns_zone_put_mem_other z r1.id r2.id hr2 hne, hres.2⟩

/-- Witness for C10: a concrete relevant IPv4 address whose records
exist, an empty zone, and an allocator failing only the PTR insertion. -/
theorem partial_publication_witness :
    (link_address_add_rrs ⟨true, true, true, true, false⟩ exCtx exAddr).1.v4zone =
        some (dns_zone_put [] 40) ∧
    (40 : Nat) ∈ dns_zone_put [] 40 ∧
    (41 : Nat) ∉ dns_zone_put [] 40 ∧
    (link_address_add_rrs ⟨true, true, true, true, false⟩ exCtx exAddr).2 = exAddr :=
  partial_publication ⟨true, true, true, true, false⟩ exCtx exAddr []
    ⟨40, 30, 7, "", 30⟩ ⟨41, 0, 7, "host", 30⟩ rfl rfl rfl rfl (by decide) rfl rfl rfl
    (by decide) (by decide)

/-! ## C8: the release order of `link_free` (corrected) -/

/-- C8 counterexample: on a link owning one DNS server and a unicast
scope, `link_free` frees the scope before the server, so the claimed
order "addresses, then servers, then scopes" does not hold. -/
theorem link_free_order_counterexample :
    link_free_events exLinkFree =
      [FreeEvent.removeRegistry 1, FreeEvent.freeScope 3, FreeEvent.freeServer 7] ∧
    ¬ (∀ i j (hi : i < (link_free_events exLinkFree).length)
         (hj : j < (link_free_events exLinkFree).length),
        (∃ sid, (link_free_events exLinkFree).get ⟨i, hi⟩ = FreeEvent.freeServer sid) →
        (∃ sid, (link_free_events exLinkFree).get ⟨j, hj⟩ = FreeEvent.freeScope sid) →
        i < j) := by
  refine ⟨rfl, ?_⟩
  intro h
  have h21 := h 2 1 (by decide) (by decide) ⟨7, rfl⟩ ⟨3, rfl⟩
  omega

/-- Helper: events emitted while removing one record are address-phase
events. -/
theorem rrRemoveEvents_phase (l : Link) (a : LinkAddress) (r : DnsResourceRecord) :
    ∀ e ∈ rrRemoveEvents l a r, freePhase e = 0 := by
  intro e he
  unfold rrRemoveEvents at he
  rcases List.mem_append.mp he with h | h
  · repeat' split at h
    all_goals simp_all [freePhase]
  · simp_all [freePhase]

/-- Helper: events emitted by `link_address_free` are address-phase
events. -/
theorem link_address_free_events_phase (l : Link) (a : LinkAddress) :
    ∀ e ∈ link_address_free_events l a, freePhase e = 0 := by
  intro e he
  unfold link_address_free_events at he
  rcases List.mem_append.mp he with h | h
  · rcases List.mem_append.mp h with h2 | h2
    · split at h2
      · exact rrRemoveEvents_phase l a _ e h2
      · simp at h2
    · split at h2
      · exact rrRemoveEvents_phase l a _ e h2
      · simp at h2
  · simp_all [freePhase]

/-- Helper: `dns_scope_free` events are scope-phase events. -/
theorem scopeFreeEvents_phase (s : Option DnsScope) :
    ∀ e ∈ scopeFreeEvents s, freePhase e = 2 := by
  intro e he
  cases s with
  | none => simp [scopeFreeEvents] at he
  | some sc => simp [scopeFreeEvents] at he; simp [he, freePhase]

/-- Helper: a block of constant phase is internally ordered. -/
theorem pairwise_phase_const (xs : List FreeEvent) (k : Nat)
    (h : ∀ e ∈ xs, freePhase e = k) :
    xs.Pairwise (fun e e' => freePhase e ≤ freePhase e') := by
  induction xs with
  | nil => exact List.Pairwise.nil
  | cons x rest ih =>
    refine List.Pairwise.cons ?_ (ih (fun e he => h e (List.mem_cons_of_mem x he)))
    intro e he
    rw [h x (List.mem_cons_self x rest), h e (List.mem_cons_of_mem x he)]

/-- Helper: the events of `link_free` come in nondecreasing phase
order: all address releases, then the registry removal, then the scope
releases, then the server releases. -/
theorem link_free_events_pairwise (l : Link) :
    (link_free_events l).Pairwise (fun e e' => freePhase e ≤ freePhase e') := by
  have hA : ∀ e ∈ l.addresses.flatMap (fun a => link_address_free_events l a),
      freePhase e = 0 := by
    intro e he
    rcases List.mem_flatMap.mp he with ⟨a, _, hea⟩
    exact link_address_free_events_phase l a e hea
  have hReg : ∀ e ∈ [FreeEvent.removeRegistry l.ifindex], freePhase e = 1 := by
    intro e he
    simp at he
    simp [he, freePhase]
  have hV : ∀ e ∈ l.dns_servers.map (fun s => FreeEvent.freeServer s.id),
      freePhase e = 3 := by
    intro e he
    rcases List.mem_map.mp he with ⟨s, _, hes⟩
    simp [← hes, freePhase]
  unfold link_free_events
  simp only [List.append_assoc]
  refine List.pairwise_append.mpr ⟨pairwise_phase_const _ 0 hA, ?_, ?_⟩
  · refine List.pairwise_append.mpr ⟨pairwise_phase_const _ 1 hReg, ?_, ?_⟩
    · refine List.pairwise_append.mpr
        ⟨pairwise_phase_const _ 2 (scopeFreeEvents_phase l.unicast_scope), ?_, ?_⟩
      · refine List.pairwise_append.mpr
          ⟨pairwise_phase_const _ 2 (scopeFreeEvents_phase l.llmnr_ipv4_scope), ?_, ?_⟩
        · refine List.pairwise_append.mpr
            ⟨pairwise_phase_const _ 2 (scopeFreeEvents_phase l.llmnr_ipv6_scope),
             pairwise_phase_const _ 3 hV, ?_⟩
          intro x hx y hy
          rw [scopeFreeEvents_phase l.llmnr_ipv6_scope x hx, hV y hy]
          omega
        · intro x hx y hy
          rw [scopeFreeEvents_phase l.llmnr_ipv4_scope x hx]
          rcases List.mem_append.mp hy with h | h
          · rw [scopeFreeEvents_phase l.llmnr_ipv6_scope y h]
          · rw [hV y h]; omega
      · intro x hx y hy
        rw [scopeFreeEvents_phase l.unicast_scope x hx]
        rcases List.mem_append.mp hy with h | h
        · rw [scopeFreeEvents_phase l.llmnr_ipv4_scope y h]
        · rcases List.mem_append.mp h with h2 | h2
          · rw [scopeFreeEvents_phase l.llmnr_ipv6_scope y h2]
          · rw [hV y h2]; omega
    · intro x hx y hy
      rw [hReg x hx]
      rcases List.mem_append.mp hy with h | h
      · rw [scopeFreeEvents_phase l.unicast_scope y h]; omega
      · rcases List.mem_append.mp h with h2 | h2
        · rw [scopeFreeEvents_phase l.llmnr_ipv4_scope y h2]; omega
        · rcases List.mem_append.mp h2 with h3 | h3
          · rw [scopeFreeEvents_phase l.llmnr_ipv6_scope y h3]; omega
          · rw [hV y h3]; omega
  · intro x hx y hy
    rw [hA x hx]
    exact Nat.zero_le _

/-- Helper: a zone-removal event only targets a scope that the link
still owns. -/
theorem removeRR_source (l : Link) (a : LinkAddress) (sid rid : Nat) :
    FreeEvent.removeRR sid rid ∈ link_address_free_events l a →
    (∃ s, l.llmnr_ipv4_scope = some s ∧ s.id = sid) ∨
    (∃ s, l.llmnr_ipv6_scope = some s ∧ s.id = sid) := by
  intro he
  unfold link_address_free_events at he
  have hrr : ∀ r : DnsResourceRecord,
      FreeEvent.removeRR sid rid ∈ rrRemoveEvents l a r →
      (∃ s, l.llmnr_ipv4_scope = some s ∧ s.id = sid) ∨
      (∃ s, l.llmnr_ipv6_scope = some s ∧ s.id = sid) := by
    intro r hr
    unfold rrRemoveEvents at hr
    rcases List.mem_append.mp hr with h | h
    · split at h
      · split at h
        · rename_i s hs
          simp at h
          exact Or.inl ⟨s, hs, h.1.symm⟩
        · simp at h
      · split at h
        · split at h
          · rename_i s hs
            simp at h
            exact Or.inr ⟨s, hs, h.1.symm⟩
          · simp at h
        · simp at h
    · simp at h
  rcases List.mem_append.mp he with h | h
  · rcases List.mem_append.mp h with h2 | h2
    · split at h2
      · exact hrr _ h2
      · simp at h2
    · split at h2
      · exact hrr _ h2
      · simp at h2
  · simp at h

/-- C8 (amended): `link_free` releases the owned addresses first, then
removes the link from the registry, then frees the three scopes, then
the DNS servers — phases are nondecreasing along the event trace, so
every address release (including each zone removal of a published
record) precedes every scope release, which precedes every server
release; and every zone removal targets a scope the link still owns,
whose release event does appear later in the trace. -/
theorem link_free_release_order (l : Link) :
    (∀ i j (hi : i < (link_free_events l).length)
       (hj : j < (link_free_events l).length), i ≤ j →
       freePhase ((link_free_events l).get ⟨i, hi⟩) ≤
         freePhase ((link_free_events l).get ⟨j, hj⟩)) ∧
    (∀ sid rid, FreeEvent.removeRR sid rid ∈ link_free_events l →
       FreeEvent.freeScope sid ∈ link_free_events l) ∧
    (∀ a ∈ l.addresses, FreeEvent.freeAddress a.id ∈ link_free_events l) ∧
    (∀ s ∈ l.dns_servers, FreeEvent.freeServer s.id ∈ link_free_events l) := by
  refine ⟨?_, ?_, ?_, ?_⟩
  · intro i j hi hj hij
    rcases Nat.lt_or_ge i j with hlt | hge
    · exact (List.pairwise_iff_get.mp (link_free_events_pairwise l)) ⟨i, hi⟩ ⟨j, hj⟩ hlt
    · have : i = j := Nat.le_antisymm hij hge
      subst this
      exact Nat.le_refl _
  · intro sid rid hmem
    unfold link_free_events at hmem ⊢
    simp only [List.append_assoc] at hmem ⊢
    rcases List.mem_append.mp hmem with h | h
    · rcases List.mem_flatMap.mp h with ⟨a, _, hea⟩
      rcases removeRR_source l a sid rid hea with ⟨s, hs, hsid⟩ | ⟨s, hs, hsid⟩
      · subst hsid
        simp [scopeFreeEvents, hs]
      · subst hsid
        simp [scopeFreeEvents, hs]
    · exfalso
      simp only [List.mem_append] at h
      rcases h with h | h
      · simp at h
      · rcases h with h | h
        · have := scopeFreeEvents_phase l.unicast_scope _ h
          simp [freePhase] at this
        · rcases h with h | h
          · have := scopeFreeEvents_phase l.llmnr_ipv4_scope _ h
            simp [freePhase] at this
          · rcases h with h | h
            · have := scopeFreeEvents_phase l.llmnr_ipv6_scope _ h
              simp [freePhase] at this
            · rcases List.mem_map.mp h with ⟨s, _, hes⟩
              simp at hes
  · intro a ha
    unfold link_free_events
    simp only [List.append_assoc, List.mem_append]
    refine Or.inl (List.mem_flatMap.mpr ⟨a, ha, ?_⟩)
    unfold link_address_free_events
    simp
  · intro s hs
    unfold link_free_events
    simp only [List.append_assoc, List.mem_append]
    refine Or.inr (Or.inr (Or.inr (Or.inr (Or.inr ?_))))
    exact List.mem_map.mpr ⟨s, hs, rfl⟩

/-- Witness for C8 (amended) at the concrete one-server link. -/
theorem link_free_release_order_witness :
    freePhase ((link_free_events exLinkFree).get ⟨0, by decide⟩) ≤
      freePhase ((link_free_events exLinkFree).get ⟨2, by decide⟩) ∧
    FreeEvent.freeServer 7 ∈ link_free_events exLinkFree :=
  ⟨(link_free_release_order exLinkFree).1 0 2 (by decide) (by decide) (by decide),
   (link_free_release_order exLinkFree).2.2.2 ⟨7, 2, 10, false⟩ (by decide)⟩

/-! ## C9: `link_update_monitor` always returns 0 -/

/-- Helper: record synchronization over a link touches only the
addresses and the LLMNR zones. -/
theorem link_add_rrs_frame (rl : RrAlloc) (hostname : String) (k4 k6 : Option Nat)
    (l : Link) (c : Nat) :
    (link_add_rrs rl hostname k4 k6 l c).2.1.dns_servers = l.dns_servers ∧
    (link_add_rrs rl hostname k4 k6 l c).2.1.unicast_scope = l.unicast_scope ∧
    (link_add_rrs rl hostname k4 k6 l c).2.1.current_dns_server = l.current_dns_server ∧
    (link_add_rrs rl hostname k4 k6 l c).2.1.flags = l.flags ∧
    (link_add_rrs rl hostname k4 k6 l c).2.1.ifindex = l.ifindex ∧
    (link_add_rrs rl hostname k4 k6 l c).2.1.name = l.name ∧
    (link_add_rrs rl hostname k4 k6 l c).2.1.mtu = l.mtu :=
  ⟨rfl, rfl, rfl, rfl, rfl, rfl, rfl⟩

/-- Helper: scope reconciliation never changes the DNS-server list. -/
theorem link_allocate_scopes_dns_servers (u : Bool) (op : Option String)
    (al : ScopeAlloc) (l : Link) (c : Nat) :
    (link_allocate_scopes u op al l c).1.dns_servers = l.dns_servers := by
  have h6 := (allocateLlmnr6_frame u op al
    (allocateLlmnr4 u op al (allocateUnicast al l c).1 (allocateUnicast al l c).2).1
    (allocateLlmnr4 u op al (allocateUnicast al l c).1 (allocateUnicast al l c).2).2).2.2.2.2.2.1
  have h4 := (allocateLlmnr4_frame u op al
    (allocateUnicast al l c).1 (allocateUnicast al l c).2).2.2.2.2.2.1
  have h1 := (allocateUnicast_frame al l c).2.2.2.2.2.1
  exact (h6.trans h4).trans h1

/-- Helper: with an empty DNS-server list, scope reconciliation leaves
no unicast scope. -/
theorem link_allocate_scopes_unicast_empty (u : Bool) (op : Option String)
    (al : ScopeAlloc) (l : Link) (c : Nat) (h : l.dns_servers = []) :
    (link_allocate_scopes u op al l c).1.unicast_scope = none := by
  have h6 := (allocateLlmnr6_frame u op al
    (allocateLlmnr4 u op al (allocateUnicast al l c).1 (allocateUnicast al l c).2).1
    (allocateLlmnr4 u op al (allocateUnicast al l c).1 (allocateUnicast al l c).2).2).2.2.2.2.2.2.2.1
  have h4 := (allocateLlmnr4_frame u op al
    (allocateUnicast al l c).1 (allocateUnicast al l c).2).2.2.2.2.2.2.2.1
  have h1 : (allocateUnicast al l c).1.unicast_scope = none := by
    unfold allocateUnicast
    rw [if_neg (by simp [h])]
  exact (h6.trans h4).trans h1

/-- C9: `link_update_monitor` returns 0 unconditionally; when the
DNS-server refresh inside it fails, the failure code is discarded, and
the scope reconciliation that still runs afterwards sees the cleared
server list: the link ends with no servers and no unicast scope. -/
theorem monitor_always_zero (env : NetEnv) (use srvNewOk : Bool) (al : ScopeAlloc)
    (rl : RrAlloc) (hostname : String) (k4 k6 : Option Nat) (l : Link) (c : Nat) :
    (link_update_monitor env use srvNewOk al rl hostname k4 k6 l c).2 = 0 ∧
    (∀ r, env.getDns l.ifindex = .error r →
       (link_update_monitor env use srvNewOk al rl hostname k4 k6 l c).1.2.1.dns_servers
           = [] ∧
       (link_update_monitor env use srvNewOk al rl hostname k4 k6 l c).1.2.1.unicast_scope
           = none) := by
  refine ⟨rfl, ?_⟩
  intro r h
  have hupd : (link_update_dns_servers env srvNewOk l c).1 =
      clearServersWith l (markAll l.dns_servers) := by
    unfold link_update_dns_servers
    rw [h]
  have hempty : (link_update_dns_servers env srvNewOk l c).1.dns_servers = [] := by
    rw [hupd]; rfl
  constructor
  · show (link_add_rrs rl hostname k4 k6
        (link_allocate_scopes use (env.opState l.ifindex) al
          (link_update_dns_servers env srvNewOk l c).1
          (link_update_dns_servers env srvNewOk l c).2.1).1
        (link_allocate_scopes use (env.opState l.ifindex) al
          (link_update_dns_servers env srvNewOk l c).1
          (link_update_dns_servers env srvNewOk l c).2.1).2).2.1.dns_servers = []
    rw [(link_add_rrs_frame _ _ _ _ _ _).1, link_allocate_scopes_dns_servers, hempty]
  · show (link_add_rrs rl hostname k4 k6
        (link_allocate_scopes use (env.opState l.ifindex) al
          (link_update_dns_servers env srvNewOk l c).1
          (link_update_dns_servers env srvNewOk l c).2.1).1
        (link_allocate_scopes use (env.opState l.ifindex) al
          (link_update_dns_servers env srvNewOk l c).1
          (link_update_dns_servers env srvNewOk l c).2.1).2).2.1.unicast_scope = none
    rw [(link_add_rrs_frame _ _ _ _ _ _).2.1]
    exact link_allocate_scopes_unicast_empty _ _ _ _ _ hempty

/-- Witness for C9: the monitor on a failing environment returns 0 and
clears the server list and unicast scope. -/
theorem monitor_always_zero_witness :
    (link_update_monitor exEnvFail true true ⟨true, true, true⟩
        ⟨true, true, true, true, true⟩ "host" none none exLink 5).2 = 0 ∧
    (link_update_monitor exEnvFail true true ⟨true, true, true⟩
        ⟨true, true, true, true, true⟩ "host" none none exLink 5).1.2.1.dns_servers = [] ∧
    (link_update_monitor exEnvFail true true ⟨true, true, true⟩
        ⟨true, true, true, true, true⟩ "host" none none exLink 5).1.2.1.unicast_scope
        = none := by
  obtain ⟨h0, hf⟩ := monitor_always_zero exEnvFail true true ⟨true, true, true⟩
    ⟨true, true, true, true, true⟩ "host" none none exLink 5
  obtain ⟨h1, h2⟩ := hf (-5) rfl
  exact ⟨h0, h1, h2⟩

/-! ## C7: decode-failure tolerance (corrected) -/

/-- Helper: scope reconciliation only touches the three scope fields. -/
theorem link_allocate_scopes_frame (u : Bool) (op : Option String) (al : ScopeAlloc)
    (l : Link) (c : Nat) :
    (link_allocate_scopes u op al l c).1.ifindex = l.ifindex ∧
    (link_allocate_scopes u op al l c).1.name = l.name ∧
    (link_allocate_scopes u op al l c).1.mtu = l.mtu ∧
    (link_allocate_scopes u op al l c).1.flags = l.flags ∧
    (link_allocate_scopes u op al l c).1.addresses = l.addresses ∧
    (link_allocate_scopes u op al l c).1.dns_servers = l.dns_servers ∧
    (link_allocate_scopes u op al l c).1.current_dns_server = l.current_dns_server := by
  obtain ⟨a1, a2, a3, a4, a5, a6, a7, -, -⟩ := allocateUnicast_frame al l c
  obtain ⟨b1, b2, b3, b4, b5, b6, b7, -, -⟩ := allocateLlmnr4_frame u op al
    (allocateUnicast al l c).1 (allocateUnicast al l c).2
  obtain ⟨c1, c2, c3, c4, c5, c6, c7, -, -⟩ := allocateLlmnr6_frame u op al
    (allocateLlmnr4 u op al (allocateUnicast al l c).1 (allocateUnicast al l c).2).1
    (allocateLlmnr4 u op al (allocateUnicast al l c).1 (allocateUnicast al l c).2).2
  exact ⟨(c1.trans b1).trans a1, (c2.trans b2).trans a2, (c3.trans b3).trans a3,
    (c4.trans b4).trans a4, (c5.trans b5).trans a5, (c6.trans b6).trans a6,
    (c7.trans b7).trans a7⟩

/-- Helper: with a succeeding unicast allocation, scope reconciliation
establishes the unicast-scope postcondition. -/
theorem link_allocate_scopes_unicast_isSome (u : Bool) (op : Option String)
    (al : ScopeAlloc) (l : Link) (c : Nat) (h : al.uc = true) :
    (link_allocate_scopes u op al l c).1.unicast_scope.isSome = !l.dns_servers.isEmpty := by
  have h6 := (allocateLlmnr6_frame u op al
    (allocateLlmnr4 u op al (allocateUnicast al l c).1 (allocateUnicast al l c).2).1
    (allocateLlmnr4 u op al (allocateUnicast al l c).1 (allocateUnicast al l c).2).2).2.2.2.2.2.2.2.1
  have h4 := (allocateLlmnr4_frame u op al
    (allocateUnicast al l c).1 (allocateUnicast al l c).2).2.2.2.2.2.2.2.1
  have e : (link_allocate_scopes u op al l c).1.unicast_scope =
      (allocateUnicast al l c).1.unicast_scope := h6.trans h4
  rw [e]
  exact allocateUnicast_isSome al l c h

/-- Helper: every address survives record synchronization with its
identity, family, value, flags and routing scope intact. -/
theorem addRrsList_mem (al : RrAlloc) (ctx : RrCtx) (addrs : List LinkAddress) :
    ∀ a ∈ addrs, ∃ a' ∈ (addRrsList al ctx addrs).2,
      a'.id = a.id ∧ a'.family = a.family ∧ a'.in_addr = a.in_addr ∧
      a'.flags = a.flags ∧ a'.scope = a.scope := by
  induction addrs generalizing ctx with
  | nil => intro a ha; simp at ha
  | cons b rest ih =>
    intro a ha
    rcases List.mem_cons.mp ha with rfl | hmem
    · obtain ⟨p1, p2, p3, p4, p5, -, -⟩ := link_address_add_rrs_preserves al ctx a
      exact ⟨(link_address_add_rrs al ctx a).2, List.mem_cons_self _ _,
        p1, p2, p3, p4, p5⟩
    · obtain ⟨a', ha', hfacts⟩ := ih (link_address_add_rrs al ctx b).1 a hmem
      exact ⟨a', List.mem_cons_of_mem _ ha', hfacts⟩

/-- Helper: the observable effect of one reconciliation pass (scope
allocation followed by record synchronization) on a link `l3`. -/
theorem reconcile_frame (use : Bool) (op : Option String) (al : ScopeAlloc)
    (rl : RrAlloc) (hostname : String) (k4 k6 : Option Nat) (l3 : Link) (c : Nat) :
    (link_add_rrs rl hostname k4 k6 (link_allocate_scopes use op al l3 c).1
       (link_allocate_scopes use op al l3 c).2).2.1.flags = l3.flags ∧
    (link_add_rrs rl hostname k4 k6 (link_allocate_scopes use op al l3 c).1
       (link_allocate_scopes use op al l3 c).2).2.1.mtu = l3.mtu ∧
    (link_add_rrs rl hostname k4 k6 (link_allocate_scopes use op al l3 c).1
       (link_allocate_scopes use op al l3 c).2).2.1.name = l3.name ∧
    (link_add_rrs rl hostname k4 k6 (link_allocate_scopes use op al l3 c).1
       (link_allocate_scopes use op al l3 c).2).2.1.dns_servers = l3.dns_servers ∧
    (al.uc = true →
      (link_add_rrs rl hostname k4 k6 (link_allocate_scopes use op al l3 c).1
         (link_allocate_scopes use op al l3 c).2).2.1.unicast_scope.isSome
        = !l3.dns_servers.isEmpty) ∧
    (∀ a ∈ l3.addresses,
      ∃ a' ∈ (link_add_rrs rl hostname k4 k6 (link_allocate_scopes use op al l3 c).1
          (link_allocate_scopes use op al l3 c).2).2.1.addresses,
        a'.id = a.id ∧ a'.family = a.family ∧ a'.in_addr = a.in_addr ∧
        a'.flags = a.flags ∧ a'.scope = a.scope) := by
  obtain ⟨af1, af2, af3, af4, af5, af6, af7⟩ := link_add_rrs_frame rl hostname k4 k6
    (link_allocate_scopes use op al l3 c).1 (link_allocate_scopes use op al l3 c).2
  obtain ⟨sf1, sf2, sf3, sf4, sf5, sf6, sf7⟩ := link_allocate_scopes_frame use op al l3 c
  refine ⟨af4.trans sf4, af7.trans sf3, af6.trans sf2, af1.trans sf6, ?_, ?_⟩
  · intro hal
    exact (congrArg Option.isSome af2).trans
      (link_allocate_scopes_unicast_isSome use op al l3 c hal)
  · intro a ha
    have ha' : a ∈ (link_allocate_scopes use op al l3 c).1.addresses := by
      rw [sf5]; exact ha
    have hmem := addRrsList_mem rl
      ⟨k4, k6, hostname,
       (link_allocate_scopes use op al l3 c).1.llmnr_ipv4_scope.map (fun s => s.zone),
       (link_allocate_scopes use op al l3 c).1.llmnr_ipv6_scope.map (fun s => s.zone),
       (link_allocate_scopes use op al l3 c).2⟩
      (link_allocate_scopes use op al l3 c).1.addresses a ha'
    exact hmem

/-- Helper: the ok-case of `link_update_rtnl` as an equation. -/
theorem link_update_rtnl_ok (use : Bool) (op : Option String) (al : ScopeAlloc)
    (rl : RrAlloc) (hostname : String) (k4 k6 : Option Nat)
    (msg : RtnlLinkMessage) (l : Link) (c : Nat) (fl : Nat)
    (h : msg.getFlags = .ok fl) :
    link_update_rtnl use op al rl hostname k4 k6 msg l c =
      .ok (link_add_rrs rl hostname k4 k6
        (link_allocate_scopes use op al (applyLinkMsg msg fl l) c).1
        (link_allocate_scopes use op al (applyLinkMsg msg fl l) c).2) := by
  unfold link_update_rtnl
  rw [h]

/-- Helper: the ok-case of `link_address_update_rtnl` as an equation. -/
theorem link_address_update_rtnl_ok (use : Bool) (op : Option String) (al : ScopeAlloc)
    (rl : RrAlloc) (hostname : String) (k4 k6 : Option Nat)
    (msg : RtnlAddrMessage) (l : Link) (aid : Nat) (c : Nat) (fl : Nat)
    (h : msg.getFlags = .ok fl) :
    link_address_update_rtnl use op al rl hostname k4 k6 msg l aid c =
      .ok (link_add_rrs rl hostname k4 k6
        (link_allocate_scopes use op al (applyAddrMsg msg fl aid l) c).1
        (link_allocate_scopes use op al (applyAddrMsg msg fl aid l) c).2) := by
  unfold link_address_update_rtnl
  rw [h]

/-- Helper: field effects of `applyLinkMsg`. -/
theorem applyLinkMsg_fields (msg : RtnlLinkMessage) (fl : Nat) (l : Link) :
    (applyLinkMsg msg fl l).flags = fl ∧
    (applyLinkMsg msg fl l).dns_servers = l.dns_servers ∧
    (applyLinkMsg msg fl l).addresses = l.addresses ∧
    (∀ e, msg.readMtu = .error e → (applyLinkMsg msg fl l).mtu = l.mtu) ∧
    (∀ e, msg.readName = .error e → (applyLinkMsg msg fl l).name = l.name) := by
  unfold applyLinkMsg
  cases hm : msg.readMtu <;> cases hn : msg.readName <;>
    exact ⟨rfl, rfl, rfl, fun e he => by simp_all, fun e he => by simp_all⟩

/-- Helper: field effects of `applyAddrMsg`. -/
theorem applyAddrMsg_fields (msg : RtnlAddrMessage) (fl : Nat) (aid : Nat) (l : Link) :
    (applyAddrMsg msg fl aid l).dns_servers = l.dns_servers ∧
    (∀ e, msg.getScope = .error e →
      ∀ a ∈ l.addresses, a.id = aid →
        ∃ a' ∈ (applyAddrMsg msg fl aid l).addresses,
          a'.id = a.id ∧ a'.flags = fl ∧ a'.scope = a.scope ∧
          a'.family = a.family ∧ a'.in_addr = a.in_addr) := by
  refine ⟨rfl, ?_⟩
  intro e he a ha haid
  refine ⟨(let a1 := { a with flags := fl };
           match msg.getScope with
           | .ok v => { a1 with scope := v }
           | .error _ => a1), ?_, ?_⟩
  · unfold applyAddrMsg
    simp only
    refine List.mem_map.mpr ⟨a, ha, ?_⟩
    rw [if_pos haid]
  · rw [he]
    exact ⟨rfl, rfl, rfl, rfl, rfl⟩

/-- C7 counterexample: a link notification whose mandatory flags field
fails to decode while its MTU field decodes fine is dropped entirely —
`link_update_rtnl` returns the decode error, so the MTU is not applied
and no scope/record reconciliation runs (here reconciliation would have
allocated the missing unicast scope for the non-empty server list). -/
theorem decode_failure_counterexample :
    link_update_rtnl true none ⟨true, true, true⟩ ⟨true, true, true, true, true⟩
        "host" none none exMsgBadFlags exLink2 50 = .error (-22) ∧
    exMsgBadFlags.readMtu = .ok 1500 ∧
    exLink2.dns_servers ≠ [] ∧
    exLink2.unicast_scope = none :=
  ⟨rfl, rfl, by decide, rfl⟩

/-- C7 (amended): a decode failure of the mandatory flags field of a
link or address notification aborts the whole update — the error is
returned and no field update or reconciliation happens; only the
optional fields are tolerant: failures decoding the MTU or name of a
link notification, or the routing scope of an address notification,
skip just that field while the flags still apply and scope/record
reconciliation still runs. -/
theorem decode_failure_handling (use : Bool) (op : Option String) (al : ScopeAlloc)
    (rl : RrAlloc) (hostname : String) (k4 k6 : Option Nat) (l : Link) (c : Nat) :
    (∀ (msg : RtnlLinkMessage) r, msg.getFlags = .error r →
       link_update_rtnl use op al rl hostname k4 k6 msg l c = .error r) ∧
    (∀ (msg : RtnlLinkMessage) fl e, msg.getFlags = .ok fl → msg.readMtu = .error e →
       ∃ out, link_update_rtnl use op al rl hostname k4 k6 msg l c = .ok out ∧
         out.2.1.mtu = l.mtu ∧ out.2.1.flags = fl ∧
         (al.uc = true → out.2.1.unicast_scope.isSome = !l.dns_servers.isEmpty)) ∧
    (∀ (msg : RtnlLinkMessage) fl e, msg.getFlags = .ok fl → msg.readName = .error e →
       ∃ out, link_update_rtnl use op al rl hostname k4 k6 msg l c = .ok out ∧
         out.2.1.name = l.name ∧ out.2.1.flags = fl ∧
         (al.uc = true → out.2.1.unicast_scope.isSome = !l.dns_servers.isEmpty)) ∧
    (∀ (msg : RtnlAddrMessage) aid r, msg.getFlags = .error r →
       link_address_update_rtnl use op al rl hostname k4 k6 msg l aid c = .error r) ∧
    (∀ (msg : RtnlAddrMessage) aid fl e, msg.getFlags = .ok fl → msg.getScope = .error e →
       ∃ out, link_address_update_rtnl use op al rl hostname k4 k6 msg l aid c
           = .ok out ∧
         (∀ a ∈ l.addresses, a.id = aid →
            ∃ a' ∈ out.2.1.addresses, a'.id = a.id ∧ a'.flags = fl ∧ a'.scope = a.scope) ∧
         (al.uc = true → out.2.1.unicast_scope.isSome = !l.dns_servers.isEmpty)) := by
  refine ⟨?_, ?_, ?_, ?_, ?_⟩
  · intro msg r h
    unfold link_update_rtnl
    rw [h]
  · intro msg fl e h hm
    obtain ⟨f1, f2, f3, f4, f5, f6⟩ :=
      reconcile_frame use op al rl hostname k4 k6 (applyLinkMsg msg fl l) c
    obtain ⟨g1, g2, g3, g4, g5⟩ := applyLinkMsg_fields msg fl l
    refine ⟨_, link_update_rtnl_ok use op al rl hostname k4 k6 msg l c fl h, ?_, ?_, ?_⟩
    · exact f2.trans (g4 e hm)
    · exact f1.trans g1
    · intro hal
      rw [f5 hal, g2]
  · intro msg fl e h hn
    obtain ⟨f1, f2, f3, f4, f5, f6⟩ :=
      reconcile_frame use op al rl hostname k4 k6 (applyLinkMsg msg fl l) c
    obtain ⟨g1, g2, g3, g4, g5⟩ := applyLinkMsg_fields msg fl l
    refine ⟨_, link_update_rtnl_ok use op al rl hostname k4 k6 msg l c fl h, ?_, ?_, ?_⟩
    · exact f3.trans (g5 e hn)
    · exact f1.trans g1
    · intro hal
      rw [f5 hal, g2]
  · intro msg aid r h
    unfold link_address_update_rtnl
    rw [h]
  · intro msg aid fl e h hs
    obtain ⟨f1, f2, f3, f4, f5, f6⟩ :=
      reconcile_frame use op al rl hostname k4 k6 (applyAddrMsg msg fl aid l) c
    obtain ⟨g1, g2⟩ := applyAddrMsg_fields msg fl aid l
    refine ⟨_, link_address_update_rtnl_ok use op al rl hostname k4 k6 msg l aid c fl h,
      ?_, ?_⟩
    · intro a ha haid
      obtain ⟨a1, ha1, hid, hfl, hsc, hfam, hin⟩ := g2 e hs a ha haid
      obtain ⟨a', ha', hid', hfam', hin', hfl', hsc'⟩ := f6 a1 ha1
      exact ⟨a', ha', hid'.trans hid, hfl'.trans hfl, hsc'.trans hsc⟩
    · intro hal
      rw [f5 hal, g1]

/-- Witness for C7 (amended): the flags-failure case at the concrete
message and link. -/
theorem decode_failure_handling_witness :
    link_update_rtnl true none ⟨true, true, true⟩ ⟨true, true, true, true, true⟩
        "host" none none exMsgBadFlags exLink2 50 = .error (-22) :=
  (decode_failure_handling true none ⟨true, true, true⟩ ⟨true, true, true, true, true⟩
    "host" none none exLink2 50).1 exMsgBadFlags (-22) rfl

/-! ## C1: DNS-server-list reconciliation -/

/-- Helper: the pairs of an appended server list. -/
theorem pairsOf_append (xs ys : List DnsServer) :
    pairsOf (xs ++ ys) = pairsOf xs ++ pairsOf ys := by
  unfold pairsOf
  exact List.map_append _ xs ys

/-- Helper: marking does not change the pairs. -/
theorem pairsOf_markAll (ss : List DnsServer) : pairsOf (markAll ss) = pairsOf ss := by
  unfold pairsOf markAll
  rw [List.map_map]
  rfl

/-- Helper: unmarking does not change the pairs. -/
theorem pairsOf_unmarkFirst (ss : List DnsServer) (f : Int) (v : Nat) :
    pairsOf (unmarkFirst ss f v) = pairsOf ss := by
  induction ss with
  | nil => rfl
  | cons s rest ih =>
    unfold unmarkFirst
    split
    · rfl
    · unfold pairsOf at ih ⊢
      simp only [List.map_cons]
      rw [ih]

/-- Helper: a found server pair is among the list's pairs. -/
theorem find_some_pair (ss : List DnsServer) (f : Int) (v : Nat) (s0 : DnsServer)
    (h : link_find_dns_server ss f v = some s0) : (f, v) ∈ pairsOf ss := by
  induction ss with
  | nil => simp [link_find_dns_server] at h
  | cons s rest ih =>
    unfold link_find_dns_server at h
    split at h
    · rename_i hc
      unfold pairsOf
      simp only [List.map_cons, List.mem_cons]
      exact Or.inl (by rw [hc.1, hc.2])
    · unfold pairsOf at ih ⊢
      simp only [List.map_cons, List.mem_cons]
      exact Or.inr (ih h)

/-- Helper: an absent pair is not among the list's pairs. -/
theorem find_none_pair (ss : List DnsServer) (f : Int) (v : Nat)
    (h : link_find_dns_server ss f v = none) : (f, v) ∉ pairsOf ss := by
  induction ss with
  | nil => simp [pairsOf]
  | cons s rest ih =>
    unfold link_find_dns_server at h
    split at h
    · simp at h
    · rename_i hc
      unfold pairsOf
      simp only [List.map_cons, List.mem_cons]
      rintro (he | he)
      · exact hc ⟨(congrArg Prod.fst he).symm, (congrArg Prod.snd he).symm⟩
      · exact ih h he

/-- Helper: under pair-uniqueness, unmarking the first match unmarks
exactly the entries whose pair is the given one. -/
theorem unmarkFirst_eq_map (ss : List DnsServer) (f : Int) (v : Nat)
    (hnd : (pairsOf ss).Nodup) :
    unmarkFirst ss f v = ss.map (unmarkIfMem [(f, v)]) := by
  induction ss with
  | nil => rfl
  | cons s rest ih =>
    have hnd' : (pairsOf rest).Nodup := by
      unfold pairsOf at hnd ⊢
      simp only [List.map_cons] at hnd
      exact List.Nodup.of_cons hnd
    unfold unmarkFirst
    split
    · rename_i hc
      have hnotin : (s.family, s.address) ∉ pairsOf rest := by
        unfold pairsOf at hnd ⊢
        simp only [List.map_cons] at hnd
        exact (List.nodup_cons.mp hnd).1
      simp only [List.map_cons]
      congr 1
      · unfold unmarkIfMem
        rw [if_pos (by simp [hc.1, hc.2])]
      · have : ∀ t ∈ rest, unmarkIfMem [(f, v)] t = t := by
          intro t ht
          unfold unmarkIfMem
          rw [if_neg]
          intro hmem
          simp only [List.mem_singleton] at hmem
          refine hnotin ?_
          rw [hc.1, hc.2, ← hmem]
          exact List.mem_map.mpr ⟨t, ht, rfl⟩
        rw [List.map_congr_left this]
        simp
    · rename_i hc
      simp only [List.map_cons]
      congr 1
      · unfold unmarkIfMem
        rw [if_neg]
        intro hmem
        simp only [List.mem_singleton, Prod.mk.injEq] at hmem
        exact hc ⟨hmem.1, hmem.2⟩
      · exact ih hnd'

/-- Helper: composing unmark steps accumulates the pair set. -/
theorem unmarkIfMem_comp (s : DnsServer) (ps : List (Int × Nat)) (q : Int × Nat) :
    unmarkIfMem ps (unmarkIfMem [q] s) = unmarkIfMem (q :: ps) s := by
  unfold unmarkIfMem
  by_cases hq : (s.family, s.address) = q
  · simp [hq]
  · by_cases hp : (s.family, s.address) ∈ ps
    · simp [hq, hp]
    · simp [hq, hp]

/-- Helper: shape of a successful pass of the `STRV_FOREACH` loop: the
resulting list is the input list with exactly the confirmed entries
unmarked, followed by newly created unmarked entries with fresh
identities, and every parsed pair is covered by an old or a new entry. -/
theorem process_ok_shape (parse : String → Except Int (Int × Nat)) (ns : List String) :
    ∀ (ss : List DnsServer) (c c' : Nat) (ss' : List DnsServer),
    processNameservers parse true ns ss c = .ok (ss', c') →
    (pairsOf ss).Nodup →
    ∃ news,
      ss' = ss.map (unmarkIfMem (parsedList parse ns)) ++ news ∧
      (∀ t ∈ news, t.marked = false ∧
        (t.family, t.address) ∈ parsedList parse ns ∧ c ≤ t.id) ∧
      (∀ p ∈ parsedList parse ns, p ∈ pairsOf ss ∨ p ∈ pairsOf news) := by
  induction ns with
  | nil =>
    intro ss c c' ss' h hnd
    unfold processNameservers at h
    obtain ⟨h1, h2⟩ : ss = ss' ∧ c = c' := by
      have := Except.ok.inj h
      exact ⟨congrArg Prod.fst this, congrArg Prod.snd this⟩
    subst h1
    subst h2
    refine ⟨[], ?_, by simp, by simp [parsedList]⟩
    have : ∀ t ∈ ss, unmarkIfMem (parsedList parse []) t = t := by
      intro t ht
      unfold unmarkIfMem
      rw [if_neg (by simp [parsedList])]
    rw [List.map_congr_left this]
    simp
  | cons n rest ih =>
    intro ss c c' ss' h hnd
    unfold processNameservers at h
    cases hp : parse n with
    | error r =>
      simp only [hp] at h
      exact absurd h (by simp)
    | ok p =>
      obtain ⟨f, v⟩ := p
      simp only [hp] at h
      have hpl : parsedList parse (n :: rest) = (f, v) :: parsedList parse rest := by
        simp only [parsedList]
        rw [hp]
      cases hf : link_find_dns_server ss f v with
      | some s0 =>
        simp only [hf] at h
        have hnd2 : (pairsOf (unmarkFirst ss f v)).Nodup := by
          rw [pairsOf_unmarkFirst]
          exact hnd
        obtain ⟨news, he, hnews, hcov⟩ := ih (unmarkFirst ss f v) c c' ss' h hnd2
        refine ⟨news, ?_, ?_, ?_⟩
        · rw [he, unmarkFirst_eq_map ss f v hnd, List.map_map, hpl]
          congr 1
          exact List.map_congr_left (fun s _ => unmarkIfMem_comp s (parsedList parse rest) (f, v))
        · rw [hpl]
          intro t ht
          obtain ⟨h1, h2, h3⟩ := hnews t ht
          exact ⟨h1, List.mem_cons_of_mem _ h2, h3⟩
        · rw [hpl]
          intro p hp2
          rcases List.mem_cons.mp hp2 with rfl | hmem
          · exact Or.inl (find_some_pair ss f v s0 hf)
          · rcases hcov p hmem with hL | hR
            · left
              rwa [pairsOf_unmarkFirst] at hL
            · right
              exact hR
      | none =>
        simp only [hf] at h
        rw [if_pos trivial] at h
        have hnotin := find_none_pair ss f v hf
        have hnd2 : (pairsOf (ss ++ [⟨c, f, v, false⟩])).Nodup := by
          rw [pairsOf_append]
          refine List.Nodup.append hnd (by simp [pairsOf]) ?_
          intro p hL hR
          simp only [pairsOf, List.map_cons, List.map_nil, List.mem_singleton] at hR
          subst hR
          exact hnotin hL
        obtain ⟨news', he, hnews, hcov⟩ := ih (ss ++ [⟨c, f, v, false⟩]) (c + 1) c' ss' h hnd2
        refine ⟨unmarkIfMem (parsedList parse rest) ⟨c, f, v, false⟩ :: news', ?_, ?_, ?_⟩
        · rw [he, List.map_append, hpl]
          have hmapss : ss.map (unmarkIfMem (parsedList parse rest)) =
              ss.map (unmarkIfMem ((f, v) :: parsedList parse rest)) := by
            refine List.map_congr_left ?_
            intro s hsmem
            have hne : (s.family, s.address) ≠ (f, v) := by
              intro he2
              exact hnotin (he2 ▸ List.mem_map.mpr ⟨s, hsmem, rfl⟩)
            unfold unmarkIfMem
            by_cases hmem : (s.family, s.address) ∈ parsedList parse rest
            · rw [if_pos hmem, if_pos (List.mem_cons_of_mem _ hmem)]
            · rw [if_neg hmem, if_neg (by simp [hne, hmem])]
          rw [← hmapss]
          simp [List.append_assoc]
        · intro t ht
          rcases List.mem_cons.mp ht with rfl | hmem
          · rw [hpl]
            refine ⟨?_, ?_, ?_⟩
            · unfold unmarkIfMem
              split <;> rfl
            · unfold unmarkIfMem
              split <;> simp
            · unfold unmarkIfMem
              split <;> simp
          · obtain ⟨h1, h2, h3⟩ := hnews t hmem
            rw [hpl]
            exact ⟨h1, List.mem_cons_of_mem _ h2, Nat.le_of_succ_le h3⟩
        · intro p hp2
          rw [hpl] at hp2
          have hheadpair : (unmarkIfMem (parsedList parse rest) ⟨c, f, v, false⟩).family = f ∧
              (unmarkIfMem (parsedList parse rest) ⟨c, f, v, false⟩).address = v := by
            unfold unmarkIfMem
            split <;> simp
          have hhead : (f, v) ∈ pairsOf
              (unmarkIfMem (parsedList parse rest) ⟨c, f, v, false⟩ :: news') := by
            unfold pairsOf
            simp only [List.map_cons, List.mem_cons]
            exact Or.inl (by rw [hheadpair.1, hheadpair.2])
          rcases List.mem_cons.mp hp2 with rfl | hmem
          · exact Or.inr hhead
          · rcases hcov p hmem with hL | hR
            · rw [pairsOf_append] at hL
              rcases List.mem_append.mp hL with hL2 | hL2
              · exact Or.inl hL2
              · simp only [pairsOf, List.map_cons, List.map_nil, List.mem_singleton] at hL2
                subst hL2
                exact Or.inr hhead
            · right
              unfold pairsOf at hR ⊢
              simp only [List.map_cons, List.mem_cons]
              exact Or.inr hR

/-- Helper: with succeeding server allocation, a failing pass can only
fail with the code of some reported string that failed to parse. -/
theorem process_error_parse (parse : String → Except Int (Int × Nat)) (ns : List String) :
    ∀ (ss : List DnsServer) (c : Nat) (r : Int) (ss2 : List DnsServer),
    processNameservers parse true ns ss c = .error (r, ss2) →
    ∃ n ∈ ns, parse n = .error r := by
  induction ns with
  | nil =>
    intro ss c r ss2 h
    unfold processNameservers at h
    exact absurd h (by simp)
  | cons n rest ih =>
    intro ss c r ss2 h
    unfold processNameservers at h
    cases hp : parse n with
    | error r2 =>
      simp only [hp] at h
      have he : r2 = r := congrArg Prod.fst ((Except.error.inj h))
      exact ⟨n, List.mem_cons_self _ _, by rw [hp, he]⟩
    | ok p =>
      obtain ⟨f, v⟩ := p
      simp only [hp] at h
      cases hf : link_find_dns_server ss f v with
      | some s0 =>
        simp only [hf] at h
        obtain ⟨n2, hn2, hp2⟩ := ih _ _ _ _ h
        exact ⟨n2, List.mem_cons_of_mem _ hn2, hp2⟩
      | none =>
        simp only [hf] at h
        rw [if_pos trivial] at h
        obtain ⟨n2, hn2, hp2⟩ := ih _ _ _ _ h
        exact ⟨n2, List.mem_cons_of_mem _ hn2, hp2⟩

/-- Helper: if some reported string fails to parse, the pass fails. -/
theorem process_exists_error (parse : String → Except Int (Int × Nat)) (ns : List String) :
    (∃ n ∈ ns, ∃ r, parse n = .error r) →
    ∀ (ss : List DnsServer) (c : Nat),
    ∃ r ss2, processNameservers parse true ns ss c = .error (r, ss2) := by
  induction ns with
  | nil =>
    rintro ⟨n, hn, -⟩
    simp at hn
  | cons n rest ih =>
    rintro ⟨n0, hn0, r0, hr0⟩ ss c
    cases hp : parse n with
    | error r =>
      exact ⟨r, ss, by unfold processNameservers; simp only [hp]⟩
    | ok p =>
      obtain ⟨f, v⟩ := p
      have hrest : ∃ n2 ∈ rest, ∃ r, parse n2 = .error r := by
        rcases List.mem_cons.mp hn0 with rfl | hmem
        · rw [hp] at hr0
          exact absurd hr0 (by simp)
        · exact ⟨n0, hmem, r0, hr0⟩
      cases hf : link_find_dns_server ss f v with
      | some s0 =>
        obtain ⟨r, ss2, h⟩ := ih hrest (unmarkFirst ss f v) c
        refine ⟨r, ss2, ?_⟩
        unfold processNameservers
        simp only [hp, hf]
        exact h
      | none =>
        obtain ⟨r, ss2, h⟩ := ih hrest (ss ++ [⟨c, f, v, false⟩]) (c + 1)
        refine ⟨r, ss2, ?_⟩
        unfold processNameservers
        simp only [hp, hf]
        rw [if_pos trivial]
        exact h

/-- Helper: if every reported string parses, the pass succeeds. -/
theorem process_ok_of_all_parse (parse : String → Except Int (Int × Nat)) (ns : List String) :
    (∀ n ∈ ns, (parse n).isOk = true) →
    ∀ (ss : List DnsServer) (c : Nat),
    ∃ ss' c', processNameservers parse true ns ss c = .ok (ss', c') := by
  induction ns with
  | nil =>
    intro _ ss c
    exact ⟨ss, c, rfl⟩
  | cons n rest ih =>
    intro hall ss c
    have hrest : ∀ n2 ∈ rest, (parse n2).isOk = true :=
      fun n2 hn2 => hall n2 (List.mem_cons_of_mem _ hn2)
    cases hp : parse n with
    | error r =>
      have := hall n (List.mem_cons_self _ _)
      rw [hp] at this
      exact absurd this (by simp [Except.isOk, Except.toBool])
    | ok p =>
      obtain ⟨f, v⟩ := p
      cases hf : link_find_dns_server ss f v with
      | some s0 =>
        obtain ⟨ss', c', h⟩ := ih hrest (unmarkFirst ss f v) c
        refine ⟨ss', c', ?_⟩
        unfold processNameservers
        simp only [hp, hf]
        exact h
      | none =>
        obtain ⟨ss', c', h⟩ := ih hrest (ss ++ [⟨c, f, v, false⟩]) (c + 1)
        refine ⟨ss', c', ?_⟩
        unfold processNameservers
        simp only [hp, hf]
        rw [if_pos trivial]
        exact h

/-- Helper: sweeping a list in which confirmed entries are unmarked and
the rest marked keeps exactly the confirmed entries. -/
theorem filter_unmarked_of_marked_map (P : List (Int × Nat)) (xs : List DnsServer) :
    ((xs.map (fun s => if (s.family, s.address) ∈ P then { s with marked := false }
        else { s with marked := true })).filter (fun s => !s.marked)) =
      (xs.filter (fun s => decide ((s.family, s.address) ∈ P))).map
        (fun s => { s with marked := false }) := by
  induction xs with
  | nil => rfl
  | cons x rest ih =>
    by_cases hmem : (x.family, x.address) ∈ P
    · simp only [List.map_cons, List.filter_cons]
      rw [if_pos hmem]
      simp [hmem, ih]
    · simp only [List.map_cons, List.filter_cons]
      rw [if_neg hmem]
      simp [hmem, ih]

/-- Helper: the entries freed by the sweep are exactly the unconfirmed
ones. -/
theorem filter_marked_of_marked_map (P : List (Int × Nat)) (xs : List DnsServer) :
    ((xs.map (fun s => if (s.family, s.address) ∈ P then { s with marked := false }
        else { s with marked := true })).filter (fun s => s.marked)) =
      (xs.filter (fun s => !decide ((s.family, s.address) ∈ P))).map
        (fun s => { s with marked := true }) := by
  induction xs with
  | nil => rfl
  | cons x rest ih =>
    by_cases hmem : (x.family, x.address) ∈ P
    · simp only [List.map_cons, List.filter_cons]
      rw [if_pos hmem]
      simp [hmem, ih]
    · simp only [List.map_cons, List.filter_cons]
      rw [if_neg hmem]
      simp [hmem, ih]

/-- Helper: the cumulative unmark map after marking everything. -/
theorem markAll_unmark_map (P : List (Int × Nat)) (xs : List DnsServer) :
    (markAll xs).map (unmarkIfMem P) =
      xs.map (fun s => if (s.family, s.address) ∈ P then { s with marked := false }
        else { s with marked := true }) := by
  unfold markAll
  rw [List.map_map]
  refine List.map_congr_left ?_
  intro s _
  by_cases hmem : (s.family, s.address) ∈ P
  · simp [unmarkIfMem, hmem]
  · simp [unmarkIfMem, hmem]

/-- Helper: unmarking a whole list does not change its pairs. -/
theorem pairsOf_unmark_map (xs : List DnsServer) :
    pairsOf (xs.map (fun s => { s with marked := false })) = pairsOf xs := by
  unfold pairsOf
  rw [List.map_map]
  rfl

/-- Helper: freeing servers whose identities avoid the cursor leaves the
cursor untouched. -/
theorem cursorAfterFreeAll_some (cid : Nat) (xs : List DnsServer)
    (h : cid ∉ xs.map (fun s => s.id)) :
    cursorAfterFreeAll (some cid) xs = some cid := by
  unfold cursorAfterFreeAll
  simp only
  rw [if_neg h]

/-- C1: after a successful pass of `link_update_dns_servers` the server
list carries exactly the reported pairs, entries whose pair is
re-confirmed survive as the same entity (same identity), every entry not
re-confirmed is destroyed, and a cursor on a re-confirmed entry is
undisturbed; if the fetch fails, or any reported string fails to parse,
the entire server list is cleared and the failure code returned. -/
theorem dns_server_reconciliation (env : NetEnv) (l : Link) (c : Nat) :
    (∀ r, env.getDns l.ifindex = .error r →
       (link_update_dns_servers env true l c).1.dns_servers = [] ∧
       (link_update_dns_servers env true l c).2.2 = r) ∧
    (∀ ns, env.getDns l.ifindex = .ok ns →
       (∃ n ∈ ns, ∃ r, env.parseAddr n = .error r) →
       (link_update_dns_servers env true l c).1.dns_servers = [] ∧
       ∃ n ∈ ns, env.parseAddr n = .error ((link_update_dns_servers env true l c).2.2)) ∧
    (∀ ns, env.getDns l.ifindex = .ok ns →
       (∀ n ∈ ns, (env.parseAddr n).isOk = true) →
       (pairsOf l.dns_servers).Nodup →
       (l.dns_servers.map (fun s => s.id)).Nodup →
       (∀ s ∈ l.dns_servers, s.id < c) →
       (link_update_dns_servers env true l c).2.2 = 0 ∧
       (∀ f v, (f, v) ∈ pairsOf (link_update_dns_servers env true l c).1.dns_servers ↔
           (f, v) ∈ parsedList env.parseAddr ns) ∧
       (∀ s ∈ l.dns_servers, (s.family, s.address) ∈ parsedList env.parseAddr ns →
          ∃ s' ∈ (link_update_dns_servers env true l c).1.dns_servers,
            s'.id = s.id ∧ s'.family = s.family ∧ s'.address = s.address) ∧
       (∀ s ∈ l.dns_servers, (s.family, s.address) ∉ parsedList env.parseAddr ns →
          ∀ s' ∈ (link_update_dns_servers env true l c).1.dns_servers, s'.id ≠ s.id) ∧
       (∀ cid s, l.current_dns_server = some cid → s ∈ l.dns_servers → s.id = cid →
          (s.family, s.address) ∈ parsedList env.parseAddr ns →
          (link_update_dns_servers env true l c).1.current_dns_server = some cid)) := by
  refine ⟨?_, ?_, ?_⟩
  · intro r h
    have heq : link_update_dns_servers env true l c =
        (clearServersWith l (markAll l.dns_servers), c, r) := by
      unfold link_update_dns_servers
      simp only [h]
    rw [heq]
    exact ⟨rfl, rfl⟩
  · intro ns hns hex
    obtain ⟨r, ss2, hproc⟩ :=
      process_exists_error env.parseAddr ns hex (markAll l.dns_servers) c
    have heq : link_update_dns_servers env true l c = (clearServersWith l ss2, c, r) := by
      unfold link_update_dns_servers
      simp only [hns, hproc]
    constructor
    · rw [heq]
      rfl
    · obtain ⟨n2, hn2, hp2⟩ :=
        process_error_parse env.parseAddr ns (markAll l.dns_servers) c r ss2 hproc
      refine ⟨n2, hn2, ?_⟩
      rw [heq]
      exact hp2
  · intro ns hns hall hndP hndI hidlt
    obtain ⟨ss', c', hproc⟩ :=
      process_ok_of_all_parse env.parseAddr ns hall (markAll l.dns_servers) c
    have heq : link_update_dns_servers env true l c = (sweepMarked l ss', c', 0) := by
      unfold link_update_dns_servers
      simp only [hns, hproc]
    have hndM : (pairsOf (markAll l.dns_servers)).Nodup := by
      rw [pairsOf_markAll]
      exact hndP
    obtain ⟨news, hshape, hnews, hcov⟩ :=
      process_ok_shape env.parseAddr ns (markAll l.dns_servers) c c' ss' hproc hndM
    have hnewsf : news.filter (fun s => !s.marked) = news :=
      List.filter_eq_self.mpr (fun t ht => by rw [(hnews t ht).1]; rfl)
    have hnewsm : news.filter (fun s => s.marked) = [] :=
      List.filter_eq_nil_iff.mpr (fun t ht => by rw [(hnews t ht).1]; simp)
    have hform : (link_update_dns_servers env true l c).1.dns_servers =
        (l.dns_servers.filter
          (fun s => decide ((s.family, s.address) ∈ parsedList env.parseAddr ns))).map
          (fun s => { s with marked := false }) ++ news := by
      rw [heq]
      show ss'.filter (fun s => !s.marked) = _
      rw [hshape, List.filter_append, markAll_unmark_map,
        filter_unmarked_of_marked_map, hnewsf]
    have hfreed : (link_update_dns_servers env true l c).1.current_dns_server =
        cursorAfterFreeAll l.current_dns_server
          ((l.dns_servers.filter
            (fun s => !decide ((s.family, s.address) ∈ parsedList env.parseAddr ns))).map
            (fun s => { s with marked := true })) := by
      rw [heq]
      show cursorAfterFreeAll l.current_dns_server (ss'.filter (fun s => s.marked)) = _
      rw [hshape, List.filter_append, markAll_unmark_map,
        filter_marked_of_marked_map, hnewsm, List.append_nil]
    refine ⟨by rw [heq], ?_, ?_, ?_, ?_⟩
    · intro f v
      rw [hform, pairsOf_append]
      constructor
      · intro hmem
        rcases List.mem_append.mp hmem with hL | hR
        · rw [pairsOf_unmark_map] at hL
          unfold pairsOf at hL
          rcases List.mem_map.mp hL with ⟨t, htf, hpair⟩
          obtain ⟨-, htd⟩ := List.mem_filter.mp htf
          rw [← hpair]
          exact of_decide_eq_true htd
        · unfold pairsOf at hR
          rcases List.mem_map.mp hR with ⟨t, ht, hpair⟩
          have := (hnews t ht).2.1
          rwa [hpair] at this
      · intro hmem
        rcases hcov (f, v) hmem with hL | hR
        · rw [pairsOf_markAll] at hL
          unfold pairsOf at hL
          rcases List.mem_map.mp hL with ⟨s, hsmem, hpair⟩
          refine List.mem_append.mpr (Or.inl ?_)
          rw [pairsOf_unmark_map]
          unfold pairsOf
          refine List.mem_map.mpr ⟨s, List.mem_filter.mpr ⟨hsmem, ?_⟩, hpair⟩
          exact decide_eq_true (hpair ▸ hmem)
        · exact List.mem_append.mpr (Or.inr hR)
    · intro s hs hsP
      rw [hform]
      exact ⟨{ s with marked := false },
        List.mem_append.mpr (Or.inl (List.mem_map.mpr
          ⟨s, List.mem_filter.mpr ⟨hs, decide_eq_true hsP⟩, rfl⟩)),
        rfl, rfl, rfl⟩
    · intro s hs hsP s' hs'
      rw [hform] at hs'
      rcases List.mem_append.mp hs' with hL | hR
      · rcases List.mem_map.mp hL with ⟨t, htf, rfl⟩
        obtain ⟨htm, htd⟩ := List.mem_filter.mp htf
        intro hid
        have hts : t = s := List.inj_on_of_nodup_map hndI htm hs hid
        subst hts
        exact hsP (of_decide_eq_true htd)
      · intro hid
        have hc := (hnews _ hR).2.2
        have hlt := hidlt s hs
        omega
    · intro cid s hcur hs hsid hsP
      rw [hfreed, hcur]
      refine cursorAfterFreeAll_some cid _ ?_
      intro hmem
      rcases List.mem_map.mp hmem with ⟨t', ht', hid⟩
      rcases List.mem_map.mp ht' with ⟨t, htf, rfl⟩
      obtain ⟨htm, htd⟩ := List.mem_filter.mp htf
      have hid2 : t.id = s.id := by
        rw [hsid]
        exact hid
      have hts : t = s := List.inj_on_of_nodup_map hndI htm hs hid2
      subst hts
      simp only [Bool.not_eq_true', decide_eq_false_iff_not] at htd
      exact htd hsP

/-- Witness for C1: the environment reports pairs (2,10) and (2,20); the
link holds (2,10) as entity 0 (the cursor target) and (2,30) as entity
1; the pass succeeds, entity 0 survives and the cursor is untouched. -/
theorem dns_server_reconciliation_witness :
    (link_update_dns_servers exEnv true exLink 5).2.2 = 0 ∧
    (∃ s' ∈ (link_update_dns_servers exEnv true exLink 5).1.dns_servers,
       s'.id = 0 ∧ s'.family = 2 ∧ s'.address = 10) ∧
    (link_update_dns_servers exEnv true exLink 5).1.current_dns_server = some 0 := by
  obtain ⟨-, -, hS⟩ := dns_server_reconciliation exEnv exLink 5
  obtain ⟨h0, hiff, hid, hdel, hcur⟩ :=
    hS ["a", "b"] rfl (by decide) (by decide) (by decide) (by decide)
  refine ⟨h0, ?_, ?_⟩
  · exact hid ⟨0, 2, 10, false⟩ (by decide) (by decide)
  · exact hcur 0 ⟨0, 2, 10, false⟩ rfl (by decide) rfl (by decide)

end Resolved
